import Mathlib

/-!
Shallow embedding and verification of the rating-enrichment cache and
incremental-population pipeline of the find-my-flick repository.

The embedding covers:
* the ranking engine `sortShowsByComprehensiveScore` (src/lib/tmdb.ts),
* the two-tier IMDb cache (src/lib/imdb-cache.ts),
* the cron population job `GET` (src/app/api/cron/imdb-cache/route.ts),
* the batch enrichment endpoint `POST` (src/app/api/tmdb/shows/enrich/route.ts).

Conventions: JS numbers are modelled as exact rationals `ℚ` (no floating
point rounding), machine-level integers as `ℤ`/`ℕ`.  `undefined`/`null`
fields are `Option`s.  Asynchronous execution is sequentialized in program
order (the runtime is single-threaded cooperative concurrency).  External
HTTP calls and the remote KV tier are oracles supplied in an environment
record; a call that would reject (throw) is modelled through `Except`.
`Math.log10` is kept abstract as a parameter `lg : ℚ → ℚ` since no claim
depends on its values.
-/

namespace FindMyFlick

/-- Media kind discriminator: `'movie' | 'tv'`. -/
inductive MediaType
  | movie
  | tv
deriving DecidableEq, Repr

/-! ## Ranking engine (src/lib/tmdb.ts, `sortShowsByComprehensiveScore`) -/

/-- The `Show` record of src/lib/tmdb.ts, restricted to the fields the
ranking comparator reads.  `poster_path` is `string | null`;
`episode_count` is a (natural) episode number when defined. -/
structure Show where
  poster_path : Option String := none
  vote_average : Option ℚ := none
  vote_count : Option ℚ := none
  popularity : Option ℚ := none
  media_type : Option MediaType := none
  revenue : Option ℚ := none
  order : Option ℚ := none
  episode_count : Option ℕ := none
deriving DecidableEq, Repr

/-- `a.poster_path !== null`. -/
def hasPoster (s : Show) : Bool := s.poster_path.isSome

/-- JS `x || 0` on a numeric field that may be `undefined`. -/
def orZero (x : Option ℚ) : ℚ := x.getD 0

/-- The weighted base score computed inside the comparator of
`sortShowsByComprehensiveScore` (popularity + reviews + box office +
role importance), before the episode-count multiplier.
`lg` stands for `Math.log10`. -/
def baseScore (lg : ℚ → ℚ) (s : Show) : ℚ :=
  let popularityW := orZero s.popularity * (25 / 100)
  let voteAvg := orZero s.vote_average * 10
  let voteCountW := min (orZero s.vote_count / 1000) 1 * 50
  let reviewScore := (voteAvg + voteCountW) * (35 / 100)
  let revenue := orZero s.revenue
  let boxOffice := min (lg (revenue + 1) / 10) 1 * 100 * (25 / 100)
  let ord := s.order.getD 999
  let roleScore := max 0 ((10 - min ord 10) / 10) * 100 * (15 / 100)
  popularityW + reviewScore + boxOffice + roleScore

/-- The episode-count multiplier of the comparator: applied only when
`media_type === 'tv'` and `episode_count !== undefined`. -/
def episodeMultiplier (s : Show) : ℚ :=
  match s.media_type, s.episode_count with
  | some .tv, some ec =>
      if ec = 0 ∨ ec = 1 then 1 / 10
      else if ec ≤ 3 then 3 / 10
      else if ec ≤ 5 then 5 / 10
      else if ec ≤ 9 then 7 / 10
      else 1
  | _, _ => 1

/-- The full per-item score used by the comparator. -/
def comprehensiveScore (lg : ℚ → ℚ) (s : Show) : ℚ :=
  baseScore lg s * episodeMultiplier s

/-- The comparator body of `sortShowsByComprehensiveScore`: poster presence
first, then descending comprehensive score (`bScore - aScore`). -/
def scoreCompare (lg : ℚ → ℚ) (a b : Show) : ℚ :=
  if hasPoster a ≠ hasPoster b then (if hasPoster b then 1 else -1)
  else comprehensiveScore lg b - comprehensiveScore lg a

/-- `sortShowsByComprehensiveScore`, with JS `Array.prototype.sort`
modelled as a stable sort by the comparator. -/
def sortShowsByComprehensiveScore (lg : ℚ → ℚ) (shows : List Show) : List Show :=
  shows.mergeSort (fun a b => decide (scoreCompare lg a b ≤ 0))

/-- Base score following the words of the spec (§4.5): `0.25·popularity +
0.35·reviewScore + 0.25·boxOfficeScore + 0.15·roleScore`. -/
def specBase (lg : ℚ → ℚ) (s : Show) : ℚ :=
  let reviewScore := orZero s.vote_average * 10 + min (orZero s.vote_count / 1000) 1 * 50
  let boxOfficeScore := min (lg (orZero s.revenue + 1) / 10) 1 * 100
  let castOrder := s.order.getD 999
  let roleScore := max 0 ((10 - min castOrder 10) / 10) * 100
  (25 / 100) * orZero s.popularity + (35 / 100) * reviewScore
    + (25 / 100) * boxOfficeScore + (15 / 100) * roleScore

/-- Episode-count penalty following the words of the spec: series items
with a defined episode count are penalized 0.1× for 0–1 episodes, 0.3× for
2–3, 0.5× for 4–5, 0.7× for 6–9, 1.0× for 10+; movies and series with
undefined episode count are never penalized. -/
def specPenalty (s : Show) : ℚ :=
  match s.media_type, s.episode_count with
  | some .tv, some ec =>
      if ec ≤ 1 then 1 / 10
      else if ec ≤ 3 then 3 / 10
      else if ec ≤ 5 then 5 / 10
      else if ec ≤ 9 then 7 / 10
      else 1
  | _, _ => 1

/-- Full spec-side score: weighted base times episode penalty. -/
def specScore (lg : ℚ → ℚ) (s : Show) : ℚ := specBase lg s * specPenalty s

/-- The boolean "a sorts no later than b" relation passed to the sort. -/
def scoreLe (lg : ℚ → ℚ) (a b : Show) : Bool := decide (scoreCompare lg a b ≤ 0)

/-! ## Generic helpers: JS `Map`, first-occurrence dedup, function update -/

/-- JS `Map.prototype.get`. -/
def jsMapGet [DecidableEq α] (m : List (α × β)) (k : α) : Option β :=
  (m.find? (fun p => decide (p.1 = k))).map (·.2)

/-- JS `Map.prototype.set`: update in place if the key exists, else append
(insertion order is preserved). -/
def jsMapSet [DecidableEq α] (m : List (α × β)) (k : α) (v : β) : List (α × β) :=
  if (m.find? (fun p => decide (p.1 = k))).isSome then
    m.map (fun p => if p.1 = k then (k, v) else p)
  else m ++ [(k, v)]

def dedupFirstAux [DecidableEq α] (seen : List α) : List α → List α
  | [] => []
  | x :: xs => if x ∈ seen then dedupFirstAux seen xs else x :: dedupFirstAux (x :: seen) xs

/-- `Array.from(new Set(xs))`: deduplicate keeping first occurrences. -/
def dedupFirst [DecidableEq α] (l : List α) : List α := dedupFirstAux [] l

/-- Pointwise function update (used for the two store tiers). -/
def fnUpdate (f : String → β) (k : String) (v : β) : String → β :=
  fun x => if x = k then v else f x

/-! ## Two-tier IMDb cache (src/lib/imdb-cache.ts) -/

/-- `{ rating: number; updatedAt: number }`. -/
structure RatingValue where
  rating : ℚ
  updatedAt : ℤ
deriving DecidableEq, Repr

/-- `{ imdbId: string; updatedAt: number }`. -/
structure IdValue where
  imdbId : String
  updatedAt : ℤ
deriving DecidableEq, Repr

/-- The persisted cron state blob (`imdb:cron:state`). -/
structure CronStateV where
  dayIndex : ℤ
  lastRunDate : Option String
  moviePage : Option ℤ := none
  tvPage : Option ℤ := none
deriving DecidableEq, Repr

/-- A JSON value held by either store tier. -/
inductive KvValue
  | rating (v : RatingValue)
  | idmap (v : IdValue)
  | cron (v : CronStateV)
  | counter (n : ℤ)
deriving DecidableEq, Repr

/-- Observable remote/network effects, in program order. -/
inductive Ev
  | kvGet (key : String)
  | kvMget (keys : List String)
  | kvSet (key : String) (v : KvValue)
  | kvMset (pairs : List (String × KvValue))
  | kvIncr (key : String)
  | pageFetch (mt : MediaType) (page : ℤ)
  | extIdsFetch (mt : MediaType) (id : Option ℤ)
  | omdbFetch (imdbId : String)
deriving DecidableEq, Repr

/-- Environment/configuration flags plus a fault oracle for the remote
tier: `kvErr n` tells whether the n-th remote KV operation throws. -/
structure Ctx where
  production : Bool
  kvUrl : Bool
  kvToken : Bool
  kvErr : ℕ → Bool
  now : ℤ

/-- `isKvEnabled`: requires `NODE_ENV === 'production'` and both KV
credentials. -/
def isKvEnabled (c : Ctx) : Bool := c.production && (c.kvUrl && c.kvToken)

/-- `isImdbCacheEnabled`. -/
def isImdbCacheEnabled (c : Ctx) : Bool := isKvEnabled c

/-- A process-local cache entry `{ value, expiresAt }`. -/
structure MemEntry where
  value : KvValue
  expiresAt : ℤ
deriving DecidableEq, Repr

/-- Mutable state threaded through the embedding: the process-local tier,
the remote KV store, the count of remote calls made so far (indexing the
fault oracle), and the effect log. -/
structure St where
  mem : String → Option MemEntry
  kv : String → Option KvValue
  tick : ℕ
  evs : List Ev

/-- `MEMORY_TTL_MS = 60 * 60 * 1000`. -/
def MEMORY_TTL_MS : ℤ := 60 * 60 * 1000

/-- `getMemoryCache`: lazily drops an entry that has expired. -/
def getMemoryCache (c : Ctx) (st : St) (key : String) : Option KvValue × St :=
  match st.mem key with
  | none => (none, st)
  | some entry =>
      if c.now > entry.expiresAt then
        (none, { st with mem := fnUpdate st.mem key none })
      else (some entry.value, st)

/-- `setMemoryCache`. -/
def setMemoryCache (c : Ctx) (st : St) (key : String) (v : KvValue) : St :=
  { st with mem := fnUpdate st.mem key (some ⟨v, c.now + MEMORY_TTL_MS⟩) }

/-- Issue one remote KV call: consumes a fault-oracle tick and records the
event; returns whether the call threw. -/
def kvCall (c : Ctx) (st : St) (ev : Ev) : Bool × St :=
  (c.kvErr st.tick, { st with tick := st.tick + 1, evs := st.evs ++ [ev] })

/-- Record a non-KV (HTTP) effect. -/
def netEv (st : St) (ev : Ev) : St := { st with evs := st.evs ++ [ev] }

def mediaName : MediaType → String
  | .movie => "movie"
  | .tv => "tv"

/-- Template interpolation of a JS number that may be `undefined`. -/
def jsNumToString : Option ℤ → String
  | some n => toString n
  | none => "undefined"

/-- Remote/local key `imdb:rating:<imdbId>`. -/
def ratingKey (imdbId : String) : String := "imdb:rating:" ++ imdbId

/-- Remote/local key `imdb:map:<mediaType>:<tmdbId>`. -/
def mapKey (mt : MediaType) (tmdbId : Option ℤ) : String :=
  "imdb:map:" ++ mediaName mt ++ ":" ++ jsNumToString tmdbId

/-- Remote key `imdb:omdb:usage:<date>`. -/
def usageKey (date : String) : String := "imdb:omdb:usage:" ++ date

/-- Bulk store update for `mset`. -/
def kvMsetStore (kv : String → Option KvValue) : List (String × KvValue) → (String → Option KvValue)
  | [] => kv
  | (k, v) :: rest => kvMsetStore (fnUpdate kv k (some v)) rest

/-- `getCachedImdbRating`.  A value of a different record shape at a
rating key (impossible in reachable states, the key namespaces are
disjoint) reads as `rating === undefined`, i.e. a `null` result. -/
def getCachedImdbRating (c : Ctx) (imdbId : String) (st : St) : Option ℚ × St :=
  if !isKvEnabled c then (none, st)
  else
    match getMemoryCache c st (ratingKey imdbId) with
    | (some (.rating v), st1) => (some v.rating, st1)
    | (some _, st1) => (none, st1)
    | (none, st1) =>
        let (err, st2) := kvCall c st1 (.kvGet (ratingKey imdbId))
        if err then (none, st2)
        else
          match st2.kv (ratingKey imdbId) with
          | some (.rating v) => (some v.rating, setMemoryCache c st2 (ratingKey imdbId) (.rating v))
          | some other => (none, setMemoryCache c st2 (ratingKey imdbId) other)
          | none => (none, st2)

/-- The memory-tier pass of `getCachedImdbRatings`: returns the hits (in
scan order) and the ids missing from the local tier. -/
def memScanRatings (c : Ctx) : List String → St → List (String × ℚ) × List String × St
  | [], st => ([], [], st)
  | id :: ids, st =>
      match getMemoryCache c st (ratingKey id) with
      | (some (.rating v), st1) =>
          let (res, miss, st2) := memScanRatings c ids st1
          ((id, v.rating) :: res, miss, st2)
      | (some _, st1) =>
          let (res, miss, st2) := memScanRatings c ids st1
          (res, miss, st2)
      | (none, st1) =>
          let (res, miss, st2) := memScanRatings c ids st1
          (res, id :: miss, st2)

/-- The remote-merge pass of `getCachedImdbRatings`: for each id missing
locally, a well-typed remote value is added to the results and populates
the local tier. -/
def mergeKvRatings (c : Ctx) : List String → List (String × ℚ) → St → List (String × ℚ) × St
  | [], acc, st => (acc, st)
  | id :: ids, acc, st =>
      match st.kv (ratingKey id) with
      | some (.rating v) =>
          mergeKvRatings c ids (jsMapSet acc id v.rating) (setMemoryCache c st (ratingKey id) (.rating v))
      | _ => mergeKvRatings c ids acc st

/-- `getCachedImdbRatings` (batch). -/
def getCachedImdbRatings (c : Ctx) (imdbIds : List String) (st : St) :
    List (String × ℚ) × St :=
  if !isKvEnabled c then ([], st)
  else
    let uniqueIds := (dedupFirst imdbIds).filter (fun s => !(s == ""))
    let (memHits, missingIds, st1) := memScanRatings c uniqueIds st
    if missingIds.isEmpty then (memHits, st1)
    else
      let (err, st2) := kvCall c st1 (.kvMget (missingIds.map ratingKey))
      if err then (memHits, st2)
      else mergeKvRatings c missingIds memHits st2

/-- `setCachedImdbRatings` (batch): local tier synchronously, then a
best-effort remote `mset` whose failure is swallowed. -/
def setCachedImdbRatings (c : Ctx) (ratings : List (String × ℚ)) (st : St) : St :=
  if !isKvEnabled c || ratings.isEmpty then st
  else
    let st1 := ratings.foldl
      (fun acc p => setMemoryCache c acc (ratingKey p.1) (.rating ⟨p.2, c.now⟩)) st
    let pairs := ratings.map (fun p => (ratingKey p.1, KvValue.rating ⟨p.2, c.now⟩))
    let (err, st2) := kvCall c st1 (.kvMset pairs)
    if err then st2
    else { st2 with kv := kvMsetStore st2.kv pairs }

/-- `setCachedImdbRating` (single). -/
def setCachedImdbRating (c : Ctx) (imdbId : String) (rating : ℚ) (st : St) : St :=
  if !isKvEnabled c then st
  else
    let st1 := setMemoryCache c st (ratingKey imdbId) (.rating ⟨rating, c.now⟩)
    let (err, st2) := kvCall c st1 (.kvSet (ratingKey imdbId) (.rating ⟨rating, c.now⟩))
    if err then st2
    else { st2 with kv := fnUpdate st2.kv (ratingKey imdbId) (some (.rating ⟨rating, c.now⟩)) }

/-- `getCachedImdbId` (single). -/
def getCachedImdbId (c : Ctx) (mt : MediaType) (tmdbId : ℤ) (st : St) : Option String × St :=
  if !isKvEnabled c then (none, st)
  else
    match getMemoryCache c st (mapKey mt (some tmdbId)) with
    | (some (.idmap v), st1) => (some v.imdbId, st1)
    | (some _, st1) => (none, st1)
    | (none, st1) =>
        let (err, st2) := kvCall c st1 (.kvGet (mapKey mt (some tmdbId)))
        if err then (none, st2)
        else
          match st2.kv (mapKey mt (some tmdbId)) with
          | some (.idmap v) =>
              (some v.imdbId, setMemoryCache c st2 (mapKey mt (some tmdbId)) (.idmap v))
          | some other => (none, setMemoryCache c st2 (mapKey mt (some tmdbId)) other)
          | none => (none, st2)

/-- Memory-tier pass of `getCachedImdbIds`. -/
def memScanIds (c : Ctx) (mt : MediaType) : List ℤ → St → List (ℤ × String) × List ℤ × St
  | [], st => ([], [], st)
  | id :: ids, st =>
      match getMemoryCache c st (mapKey mt (some id)) with
      | (some (.idmap v), st1) =>
          let (res, miss, st2) := memScanIds c mt ids st1
          ((id, v.imdbId) :: res, miss, st2)
      | (some _, st1) =>
          let (res, miss, st2) := memScanIds c mt ids st1
          (res, miss, st2)
      | (none, st1) =>
          let (res, miss, st2) := memScanIds c mt ids st1
          (res, id :: miss, st2)

/-- Remote merge pass of `getCachedImdbIds`: a remote value is added only
when `typed?.imdbId` is truthy. -/
def mergeKvIds (c : Ctx) (mt : MediaType) : List ℤ → List (ℤ × String) → St → List (ℤ × String) × St
  | [], acc, st => (acc, st)
  | id :: ids, acc, st =>
      match st.kv (mapKey mt (some id)) with
      | some (.idmap v) =>
          if v.imdbId = "" then mergeKvIds c mt ids acc st
          else
            mergeKvIds c mt ids (jsMapSet acc id v.imdbId)
              (setMemoryCache c st (mapKey mt (some id)) (.idmap v))
      | _ => mergeKvIds c mt ids acc st

/-- `getCachedImdbIds` (batch); ids that are not numbers are dropped. -/
def getCachedImdbIds (c : Ctx) (mt : MediaType) (tmdbIds : List (Option ℤ)) (st : St) :
    List (ℤ × String) × St :=
  if !isKvEnabled c then ([], st)
  else
    let uniqueIds := (dedupFirst tmdbIds).filterMap (fun x => x)
    let (memHits, missingIds, st1) := memScanIds c mt uniqueIds st
    if missingIds.isEmpty then (memHits, st1)
    else
      let (err, st2) := kvCall c st1 (.kvMget (missingIds.map (fun i => mapKey mt (some i))))
      if err then (memHits, st2)
      else mergeKvIds c mt missingIds memHits st2

/-- `setCachedImdbId` (single). -/
def setCachedImdbId (c : Ctx) (mt : MediaType) (tmdbId : ℤ) (imdbId : String) (st : St) : St :=
  if !isKvEnabled c then st
  else
    let st1 := setMemoryCache c st (mapKey mt (some tmdbId)) (.idmap ⟨imdbId, c.now⟩)
    let (err, st2) := kvCall c st1 (.kvSet (mapKey mt (some tmdbId)) (.idmap ⟨imdbId, c.now⟩))
    if err then st2
    else
      { st2 with kv := fnUpdate st2.kv (mapKey mt (some tmdbId)) (some (.idmap ⟨imdbId, c.now⟩)) }

/-- `setCachedImdbIds` (batch).  Keys may be `undefined` (a JS `Map`
permits it), which interpolates into the KV key as "undefined". -/
def setCachedImdbIds (c : Ctx) (mt : MediaType) (mappings : List (Option ℤ × String)) (st : St) : St :=
  if !isKvEnabled c || mappings.isEmpty then st
  else
    let st1 := mappings.foldl
      (fun acc p => setMemoryCache c acc (mapKey mt p.1) (.idmap ⟨p.2, c.now⟩)) st
    let pairs := mappings.map (fun p => (mapKey mt p.1, KvValue.idmap ⟨p.2, c.now⟩))
    let (err, st2) := kvCall c st1 (.kvMset pairs)
    if err then st2
    else { st2 with kv := kvMsetStore st2.kv pairs }

/-- `getCronState`: note the remote read is NOT wrapped in try/catch, so a
thrown remote error propagates to the caller. -/
def getCronState (c : Ctx) (st : St) : Except Unit (Option CronStateV) × St :=
  if !isKvEnabled c then (.ok none, st)
  else
    let (err, st1) := kvCall c st (.kvGet "imdb:cron:state")
    if err then (.error (), st1)
    else
      match st1.kv "imdb:cron:state" with
      | some (.cron v) => (.ok (some v), st1)
      | _ => (.ok none, st1)

/-- `setCronState`: also not wrapped in try/catch. -/
def setCronState (c : Ctx) (s : CronStateV) (st : St) : Except Unit Unit × St :=
  if !isKvEnabled c then (.ok (), st)
  else
    let (err, st1) := kvCall c st (.kvSet "imdb:cron:state" (.cron s))
    if err then (.error (), st1)
    else (.ok (), { st1 with kv := fnUpdate st1.kv "imdb:cron:state" (some (.cron s)) })

/-- `incrementOmdbUsage`: performs a remote `INCR` with NO `isKvEnabled`
guard and no try/catch.  `INCR` on a missing key yields 1. -/
def incrementOmdbUsage (c : Ctx) (date : String) (st : St) : Except Unit ℤ × St :=
  let (err, st1) := kvCall c st (.kvIncr (usageKey date))
  if err then (.error (), st1)
  else
    let n : ℤ :=
      match st1.kv (usageKey date) with
      | some (.counter n) => n + 1
      | _ => 1
    (.ok n, { st1 with kv := fnUpdate st1.kv (usageKey date) (some (.counter n)) })

/-- `getOmdbUsage`: remote read without try/catch. -/
def getOmdbUsage (c : Ctx) (date : String) (st : St) : Except Unit (Option ℤ) × St :=
  if !isKvEnabled c then (.ok none, st)
  else
    let (err, st1) := kvCall c st (.kvGet (usageKey date))
    if err then (.error (), st1)
    else
      match st1.kv (usageKey date) with
      | some (.counter n) => (.ok (some n), st1)
      | _ => (.ok none, st1)

/-! ## JS `parseFloat` (decimal/exponent grammar; leading whitespace and
trailing garbage ignored; `NaN` is `none`).  The `Infinity` literal is
outside the modelled grammar (it never arises from a rating field). -/

def isWsChar (ch : Char) : Bool :=
  decide (ch = ' ' ∨ ch = '\t' ∨ ch = '\n' ∨ ch = '\r')

def isDigitChar (ch : Char) : Bool := decide ('0' ≤ ch ∧ ch ≤ '9')

def natOfDigits (ds : List Char) : ℕ :=
  ds.foldl (fun acc ch => acc * 10 + (ch.toNat - '0'.toNat)) 0

/-- Exponent digits after an optional sign; an empty digit run means the
exponent part is ignored. -/
def expDigits (sign : ℤ) (cs : List Char) : ℤ :=
  let ds := cs.takeWhile isDigitChar
  if ds.isEmpty then 0 else sign * natOfDigits ds

def parseExp : List Char → ℤ
  | '+' :: t => expDigits 1 t
  | '-' :: t => expDigits (-1) t
  | t => expDigits 1 t

/-- The fractional digit run after a decimal point, with the remaining
characters. -/
def fracOf : List Char → List Char × List Char
  | '.' :: t => (t.takeWhile isDigitChar, t.dropWhile isDigitChar)
  | rest => ([], rest)

/-- The exponent part (`e`/`E` followed by a signed digit run). -/
def expoOf : List Char → ℤ
  | 'e' :: t => parseExp t
  | 'E' :: t => parseExp t
  | _ => 0

/-- Unsigned decimal literal `digits [. digits] [e|E exp]`; `none` when no
digit is consumed (JS `NaN`). -/
def parseDecimal (cs : List Char) : Option ℚ :=
  let intPart := cs.takeWhile isDigitChar
  let fr := fracOf (cs.dropWhile isDigitChar)
  if intPart.isEmpty && fr.1.isEmpty then none
  else
    let mantissa : ℚ :=
      (natOfDigits intPart : ℚ) + (natOfDigits fr.1 : ℚ) / ((10 : ℚ) ^ fr.1.length)
    some (mantissa * (10 : ℚ) ^ expoOf fr.2)

/-- `parseFloat`. -/
def jsParseFloat (s : String) : Option ℚ :=
  match s.data.dropWhile isWsChar with
  | '+' :: t => parseDecimal t
  | '-' :: t => (parseDecimal t).map (fun q => -q)
  | t => parseDecimal t

/-- JS `v || null` on an optional string. -/
def strTruthy : Option String → Option String
  | some x => if x = "" then none else some x
  | none => none

/-! ## Rate-limited ratings fetcher and population job
(src/app/api/cron/imdb-cache/route.ts) -/

/-- Outcome of one external HTTP fetch: a rejected promise, or a response
with an ok flag and a parsed JSON body. -/
inductive FetchRes (α : Type)
  | reject
  | resp (ok : Bool) (body : α)

/-- OMDb response body fields read by the fetcher. -/
structure OmdbBody where
  response : Option String
  imdbRating : Option String

/-- TMDB popular-page body: `data?.results` item ids. -/
structure PageBody where
  results : Option (List ℤ)

/-- TMDB external-ids body. -/
structure ExtIdsBody where
  imdb_id : Option String

/-- `data.Response === 'True' && data.imdbRating` followed by
`parseFloat`; `NaN` yields `null`. -/
def omdbRatingFromBody (response : Option String) (imdbRating : Option String) : Option ℚ :=
  if response = some "True" then
    match imdbRating with
    | some s => if s = "" then none else jsParseFloat s
    | none => none
  else none

/-- Environment of the cron route: configuration, request headers, the
current date key, and oracles for the three external services. -/
structure RunEnv where
  ctx : Ctx
  hasVercelCronHeader : Bool
  cronSecret : Option String
  authHeader : Option String
  tmdbKey : Bool
  omdbKey : Bool
  todayKey : String
  popularPage : MediaType → ℤ → FetchRes PageBody
  extIds : MediaType → ℤ → FetchRes ExtIdsBody
  omdb : String → FetchRes OmdbBody

/-- `isAuthorizedCron`. -/
def isAuthorizedCron (env : RunEnv) : Bool :=
  (match env.cronSecret with
   | some s => !(s == "") && decide (env.authHeader = some ("Bearer " ++ s))
   | none => false)
  || env.hasVercelCronHeader
  || !env.ctx.production

def DAYS_IN_CYCLE : ℤ := 30

def REQUEST_CONCURRENCY : ℕ := 5

def MAX_TMDB_PAGES : ℤ := 500

def TARGET_NEW_RATINGS : ℕ := 1000

/-- A popular-listing item (`{ id, media_type }`; display names carry no
logic and are omitted). -/
structure PopularTitle where
  id : ℤ
  media_type : MediaType
deriving DecidableEq, Repr

/-- `fetchPopularPage`: a non-ok response or a body without `results`
yields `[]`; a rejected fetch propagates (no try/catch). -/
def fetchPopularPage (env : RunEnv) (mt : MediaType) (page : ℤ) (st : St) :
    Except Unit (List PopularTitle) × St :=
  let st1 := netEv st (.pageFetch mt page)
  match env.popularPage mt page with
  | .reject => (.error (), st1)
  | .resp ok body =>
      if !ok then (.ok [], st1)
      else
        match body.results with
        | none => (.ok [], st1)
        | some ids => (.ok (ids.map (fun i => ⟨i, mt⟩)), st1)

/-- `fetchOmdbRating`: increments the daily usage counter before fetching;
the whole body is inside try/catch, so any throw (including from the
counter increment) yields `null`. -/
def fetchOmdbRating (env : RunEnv) (imdbId : String) (st : St) : Option ℚ × St :=
  if !env.omdbKey then (none, st)
  else
    match incrementOmdbUsage env.ctx env.todayKey st with
    | (.error _, st1) => (none, st1)
    | (.ok _, st1) =>
        let st2 := netEv st1 (.omdbFetch imdbId)
        match env.omdb imdbId with
        | .reject => (none, st2)
        | .resp ok body =>
            if !ok then (none, st2)
            else (omdbRatingFromBody body.response body.imdbRating, st2)

/-- The rating the provider oracle yields for an id after parsing — the
value `fetchOmdbRating` returns whenever it returns a rating at all. -/
def omdbParsed (env : RunEnv) (imdbId : String) : Option ℚ :=
  if !env.omdbKey then none
  else
    match env.omdb imdbId with
    | .reject => none
    | .resp ok body =>
        if !ok then none
        else omdbRatingFromBody body.response body.imdbRating

/-- Per-run diagnostic counters. -/
structure Counters where
  processed : ℕ := 0
  cachedRatings : ℕ := 0
  fetchedRatings : ℕ := 0
  missingRatings : ℕ := 0
  missingImdbId : ℕ := 0
  newRatings : ℕ := 0
  moviePagesScanned : ℕ := 0
  tvPagesScanned : ℕ := 0
deriving DecidableEq, Repr

/-- Per-title resolution inside a chunk (the `imdbIdsByTitle` pass):
cached mapping, else an external-ids fetch whose truthy result is queued
into the per-kind new-mapping maps.  A rejected fetch propagates. -/
def resolveTitles (env : RunEnv) (movieMappings tvMappings : List (ℤ × String)) :
    List PopularTitle → List (Option ℤ × String) → List (Option ℤ × String) → St →
    Except Unit (List (PopularTitle × Option String)) × List (Option ℤ × String) ×
      List (Option ℤ × String) × St
  | [], nm, nt, st => (.ok [], nm, nt, st)
  | t :: ts, nm, nt, st =>
      let cachedMappings := if t.media_type = .movie then movieMappings else tvMappings
      match strTruthy (jsMapGet cachedMappings t.id) with
      | some imdbId =>
          match resolveTitles env movieMappings tvMappings ts nm nt st with
          | (.ok rest, nm', nt', st') => (.ok ((t, some imdbId) :: rest), nm', nt', st')
          | (.error e, nm', nt', st') => (.error e, nm', nt', st')
      | none =>
          let st1 := netEv st (.extIdsFetch t.media_type (some t.id))
          match env.extIds t.media_type t.id with
          | .reject => (.error (), nm, nt, st1)
          | .resp ok body =>
              let imdbId := if ok then strTruthy body.imdb_id else none
              let nm1 := match imdbId with
                | some iid => if t.media_type = .movie then jsMapSet nm (some t.id) iid else nm
                | none => nm
              let nt1 := match imdbId with
                | some iid => if t.media_type = .movie then nt else jsMapSet nt (some t.id) iid
                | none => nt
              match resolveTitles env movieMappings tvMappings ts nm1 nt1 st1 with
              | (.ok rest, nm', nt', st') => (.ok ((t, imdbId) :: rest), nm', nt', st')
              | (.error e, nm', nt', st') => (.error e, nm', nt', st')

/-- The per-title rating pass: count a missing mapping, a cache hit, a
fresh fetch (queued for the batched write) or a missing rating. -/
def ratingPass (env : RunEnv) (cachedRatingsMap : List (String × ℚ)) :
    List (PopularTitle × Option String) → Counters → List (String × ℚ) → St →
    Counters × List (String × ℚ) × St
  | [], c, w, st => (c, w, st)
  | (_, none) :: rest, c, w, st =>
      ratingPass env cachedRatingsMap rest
        { c with missingImdbId := c.missingImdbId + 1 } w st
  | (_, some iid) :: rest, c, w, st =>
      match jsMapGet cachedRatingsMap iid with
      | some _ =>
          ratingPass env cachedRatingsMap rest
            { c with cachedRatings := c.cachedRatings + 1 } w st
      | none =>
          match fetchOmdbRating env iid st with
          | (some r, st1) =>
              ratingPass env cachedRatingsMap rest
                { c with fetchedRatings := c.fetchedRatings + 1,
                         newRatings := c.newRatings + 1 }
                (jsMapSet w iid r) st1
          | (none, st1) =>
              ratingPass env cachedRatingsMap rest
                { c with missingRatings := c.missingRatings + 1 } w st1

/-- One chunk of the population job: batched mapping reads, per-title
resolution, batched mapping writes, batched rating read, per-title rating
resolution, batched rating write. -/
def processChunk (env : RunEnv) (chunk : List PopularTitle) (c : Counters) (st : St) :
    Except Unit Counters × St :=
  let movieIds := (chunk.filter (fun t => t.media_type == .movie)).map (·.id)
  let tvIds := (chunk.filter (fun t => t.media_type == .tv)).map (·.id)
  let (movieMappings, st1) :=
    if !movieIds.isEmpty then getCachedImdbIds env.ctx .movie (movieIds.map some) st
    else ([], st)
  let (tvMappings, st2) :=
    if !tvIds.isEmpty then getCachedImdbIds env.ctx .tv (tvIds.map some) st1
    else ([], st1)
  match resolveTitles env movieMappings tvMappings chunk [] [] st2 with
  | (.error e, _, _, st3) => (.error e, st3)
  | (.ok resolved, newMovieMappings, newTvMappings, st3) =>
      let st4 :=
        if !newMovieMappings.isEmpty then setCachedImdbIds env.ctx .movie newMovieMappings st3
        else st3
      let st5 :=
        if !newTvMappings.isEmpty then setCachedImdbIds env.ctx .tv newTvMappings st4
        else st4
      let imdbIds := resolved.filterMap (fun p => p.2)
      let (cachedRatingsMap, st6) :=
        if !imdbIds.isEmpty then getCachedImdbRatings env.ctx imdbIds st5
        else ([], st5)
      let (c1, ratingsToWrite, st7) := ratingPass env cachedRatingsMap resolved c [] st6
      let st8 :=
        if !ratingsToWrite.isEmpty then setCachedImdbRatings env.ctx ratingsToWrite st7
        else st7
      (.ok { c1 with processed := c1.processed + chunk.length }, st8)

/-- The chunk loop of one page pair, with the early break once the
new-ratings target is reached. -/
def processChunks (env : RunEnv) : List (List PopularTitle) → Counters → St →
    Except Unit Counters × St
  | [], c, st => (.ok c, st)
  | chunk :: rest, c, st =>
      if TARGET_NEW_RATINGS ≤ c.newRatings then (.ok c, st)
      else
        match processChunk env chunk c st with
        | (.error e, st1) => (.error e, st1)
        | (.ok c1, st1) => processChunks env rest c1 st1

/-- The mutable locals of the main while loop. -/
structure LoopSt where
  moviePage : ℤ
  tvPage : ℤ
  cnt : Counters
deriving DecidableEq, Repr

/-- Outcome of one iteration of the while loop body. -/
inductive StepOut
  | exit (s : LoopSt)
  | next (s : LoopSt)
  | thrown
deriving DecidableEq, Repr

/-- One iteration of the main loop body (the loop guard already held):
fetch the page pair (each only while within the page ceiling), advance the
cursors that yielded items, break on an empty combined batch, otherwise
feed the titles through the chunk loop. -/
def loopBody (env : RunEnv) (s : LoopSt) (st : St) : StepOut × St :=
  let mfetch :=
    if s.moviePage ≤ MAX_TMDB_PAGES then fetchPopularPage env .movie s.moviePage st
    else (.ok [], st)
  let tfetch :=
    if s.tvPage ≤ MAX_TMDB_PAGES then fetchPopularPage env .tv s.tvPage mfetch.2
    else (.ok [], mfetch.2)
  match mfetch.1, tfetch.1 with
  | .error _, _ => (.thrown, tfetch.2)
  | _, .error _ => (.thrown, tfetch.2)
  | .ok movieResults, .ok tvResults =>
      let s1 : LoopSt :=
        { moviePage := if movieResults.isEmpty then s.moviePage else s.moviePage + 1
          tvPage := if tvResults.isEmpty then s.tvPage else s.tvPage + 1
          cnt := { s.cnt with
            moviePagesScanned := s.cnt.moviePagesScanned + (if movieResults.isEmpty then 0 else 1)
            tvPagesScanned := s.cnt.tvPagesScanned + (if tvResults.isEmpty then 0 else 1) } }
      let titles := movieResults ++ tvResults
      if titles.isEmpty then (.exit s1, tfetch.2)
      else
        match processChunks env (List.toChunks REQUEST_CONCURRENCY titles) s1.cnt tfetch.2 with
        | (.error _, st3) => (.thrown, st3)
        | (.ok c1, st3) => (.next { s1 with cnt := c1 }, st3)

/-- Termination measure: total remaining pages below the ceiling. -/
def loopMeasure (s : LoopSt) : ℕ :=
  (MAX_TMDB_PAGES + 1 - s.moviePage).toNat + (MAX_TMDB_PAGES + 1 - s.tvPage).toNat

/-- The main while loop of the population job: iterates while the
new-ratings target is unmet and either cursor is within the page ceiling.
Total: every iteration that continues advances at least one cursor that
was within the ceiling. -/
def runLoop (env : RunEnv) (s : LoopSt) (st : St) : Except Unit LoopSt × St :=
  if s.cnt.newRatings < TARGET_NEW_RATINGS ∧
      (s.moviePage ≤ MAX_TMDB_PAGES ∨ s.tvPage ≤ MAX_TMDB_PAGES) then
    match h : loopBody env s st with
    | (.exit s', st') => (.ok s', st')
    | (.thrown, st') => (.error (), st')
    | (.next s', st') => runLoop env s' st'
  else (.ok s, st)
termination_by loopMeasure s
decreasing_by
  simp only [loopBody] at h
  split at h
  · exact absurd h (by simp)
  · exact absurd h (by simp)
  next movieResults tvResults hm ht =>
    by_cases hmp : (movieResults ++ tvResults).isEmpty
    · rw [if_pos hmp] at h
      exact absurd h (by simp)
    · rw [if_neg hmp] at h
      have hME : ¬movieResults.isEmpty → s.moviePage ≤ MAX_TMDB_PAGES := by
        intro hne
        by_contra hgt
        rw [if_neg hgt] at hm
        simp at hm
        simp [← hm] at hne
      have hTE : ¬tvResults.isEmpty → s.tvPage ≤ MAX_TMDB_PAGES := by
        intro hne
        by_contra hgt
        rw [if_neg hgt] at ht
        simp at ht
        simp [← ht] at hne
      split at h
      · exact absurd h (by simp)
      · injection h with h1 h2
        injection h1 with h1
        rw [← h1]
        unfold loopMeasure MAX_TMDB_PAGES at *
        by_cases he1 : movieResults.isEmpty <;> by_cases he2 : tvResults.isEmpty
        · rw [List.isEmpty_iff] at he1 he2
          rw [he1, he2] at hmp
          simp at hmp
        · simp only [he1, he2, Bool.false_eq_true, if_true, if_false]
          have := hTE (by simp [he2])
          omega
        · simp only [he1, he2, Bool.false_eq_true, if_true, if_false]
          have := hME (by simp [he1])
          omega
        · simp only [he1, he2, Bool.false_eq_true, if_true, if_false]
          have hb1 := hME (by simp [he1])
          have hb2 := hTE (by simp [he2])
          omega

/-- JSON responses the cron route can produce. -/
inductive GetResponse
  | unauthorized
  | missingKeys
  | kvNotConfigured
  | skipped (dayIndex : ℤ)
  | okRun (dayIndex : ℤ) (moviePage tvPage : ℤ) (cnt : Counters)
deriving DecidableEq, Repr

/-- `nextDayIndex = ((state?.dayIndex ?? -1) + 1) % DAYS_IN_CYCLE` with the
JS `%` (truncated remainder). -/
def nextDayIndexOf (stateOpt : Option CronStateV) : ℤ :=
  Int.tmod (((stateOpt.map (·.dayIndex)).getD (-1)) + 1) DAYS_IN_CYCLE

/-- The starting page cursors: the persisted cursors (default 1), both
reset to 1 on day-cycle wraparound. -/
def initialCursors (stateOpt : Option CronStateV) : ℤ × ℤ :=
  if nextDayIndexOf stateOpt = 0 then (1, 1)
  else ((stateOpt.bind (·.moviePage)).getD 1, (stateOpt.bind (·.tvPage)).getD 1)

/-- The run portion of the cron route after the skip guard: execute the
main loop, then persist the cycle state unconditionally — unless an
uncaught rejection propagated out of the loop. -/
def cronGETRun (env : RunEnv) (stateOpt : Option CronStateV) (st : St) :
    Except Unit GetResponse × St :=
  let nextDayIndex := nextDayIndexOf stateOpt
  let cursors := initialCursors stateOpt
  match runLoop env ⟨cursors.1, cursors.2, {}⟩ st with
  | (.error e, st1) => (.error e, st1)
  | (.ok s', st1) =>
      match setCronState env.ctx
          ⟨nextDayIndex, some env.todayKey, some s'.moviePage, some s'.tvPage⟩ st1 with
      | (.error e, st2) => (.error e, st2)
      | (.ok _, st2) => (.ok (.okRun nextDayIndex s'.moviePage s'.tvPage s'.cnt), st2)

/-- The cron route handler `GET`: authorization, configuration and
cache-enabled guards, the already-ran-today skip guard, then the run.
An `Except.error` result models an uncaught promise rejection (the route
has no try/catch). -/
def cronGET (env : RunEnv) (st : St) : Except Unit GetResponse × St :=
  if !isAuthorizedCron env then (.ok .unauthorized, st)
  else if !env.tmdbKey || !env.omdbKey then (.ok .missingKeys, st)
  else if !isImdbCacheEnabled env.ctx then (.ok .kvNotConfigured, st)
  else
    match getCronState env.ctx st with
    | (.error e, st1) => (.error e, st1)
    | (.ok stateOpt, st1) =>
        match stateOpt with
        | some cs =>
            if cs.lastRunDate = some env.todayKey then (.ok (.skipped cs.dayIndex), st1)
            else cronGETRun env stateOpt st1
        | none => cronGETRun env none st1

/-! ## Batch enrichment endpoint (src/app/api/tmdb/shows/enrich/route.ts) -/

/-- A catalog item as received by the enrichment endpoint, restricted to
the fields the endpoint reads or writes.  Any field may be absent
(malformed items included). -/
structure EShow where
  id : Option ℤ := none
  media_type : Option MediaType := none
  imdb_rating : Option ℚ := none
  imdb_id : Option String := none
deriving DecidableEq, Repr

/-- Environment of the enrichment route: cache context plus the
external-ids oracle (keyed by the possibly-undefined item id). -/
structure EnrichEnv where
  ctx : Ctx
  extIds : MediaType → Option ℤ → FetchRes ExtIdsBody

/-- The parsed request body: a throwing `request.json()`, a body whose
`shows` is not an array, or the array itself. -/
inductive EnrichBody
  | malformed
  | json (shows : Option (List EShow))

/-- JSON responses of the enrichment route. -/
inductive EnrichResponse
  | okShows (shows : List EShow)
  | badRequest
  | serverError
deriving DecidableEq, Repr

/-- `show.media_type || 'movie'`. -/
def effMediaType (s : EShow) : MediaType := s.media_type.getD .movie

/-- `typeGroups`: item ids grouped by effective media kind, preserving the
first-occurrence order of kinds. -/
def typeGroupsOf (batch : List EShow) : List (MediaType × List (Option ℤ)) :=
  batch.foldl (fun groups s =>
    let mt := effMediaType s
    match jsMapGet groups mt with
    | some ids => jsMapSet groups mt (ids ++ [s.id])
    | none => groups ++ [(mt, [s.id])]) []

/-- `cachedMappingsByType`: one batched mapping read per media kind. -/
def loadGroupMappings (c : Ctx) : List (MediaType × List (Option ℤ)) → St →
    List (MediaType × List (ℤ × String)) × St
  | [], st => ([], st)
  | (mt, ids) :: rest, st =>
      let (m, st1) := getCachedImdbIds c mt ids st
      let (ms, st2) := loadGroupMappings c rest st1
      ((mt, m) :: ms, st2)

/-- `Map<number,string>.get` with a possibly-undefined key. -/
def jsMapGetNum (m : List (ℤ × String)) (k : Option ℤ) : Option String :=
  match k with
  | some i => jsMapGet m i
  | none => none

/-- The per-item resolution pass of an enrichment batch: items that
already carry a rating are passed through; others resolve their mapping
from the cached maps or an external-ids fetch, queueing new mappings per
kind.  A rejected fetch propagates (to the route's catch). -/
def resolveEShows (env : EnrichEnv) (cmaps : List (MediaType × List (ℤ × String))) :
    List EShow → List (MediaType × List (Option ℤ × String)) → St →
    Except Unit (List (EShow × Option String)) ×
      List (MediaType × List (Option ℤ × String)) × St
  | [], nmaps, st => (.ok [], nmaps, st)
  | s :: rest, nmaps, st =>
      if s.imdb_rating.isSome then
        match resolveEShows env cmaps rest nmaps st with
        | (.ok rs, nmaps', st') => (.ok ((s, strTruthy s.imdb_id) :: rs), nmaps', st')
        | (.error e, nmaps', st') => (.error e, nmaps', st')
      else
        let mt := effMediaType s
        let cachedMappings := (jsMapGet cmaps mt).getD []
        match strTruthy (jsMapGetNum cachedMappings s.id) with
        | some iid =>
            match resolveEShows env cmaps rest nmaps st with
            | (.ok rs, nmaps', st') => (.ok ((s, some iid) :: rs), nmaps', st')
            | (.error e, nmaps', st') => (.error e, nmaps', st')
        | none =>
            let st1 := netEv st (.extIdsFetch mt s.id)
            match env.extIds mt s.id with
            | .reject => (.error (), nmaps, st1)
            | .resp ok body =>
                let iid? := if ok then strTruthy body.imdb_id else none
                let nmaps1 :=
                  match iid? with
                  | some iid =>
                      match jsMapGet nmaps mt with
                      | some m => jsMapSet nmaps mt (jsMapSet m s.id iid)
                      | none => nmaps ++ [(mt, [(s.id, iid)])]
                  | none => nmaps
                match resolveEShows env cmaps rest nmaps1 st1 with
                | (.ok rs, nmaps', st') => (.ok ((s, iid?) :: rs), nmaps', st')
                | (.error e, nmaps', st') => (.error e, nmaps', st')

/-- One batched mapping write per media kind holding new mappings. -/
def writeNewMappings (c : Ctx) : List (MediaType × List (Option ℤ × String)) → St → St
  | [], st => st
  | (mt, m) :: rest, st =>
      writeNewMappings c rest (if !m.isEmpty then setCachedImdbIds c mt m st else st)

/-- The output pass: set `imdb_id` for resolved items and `imdb_rating`
from the batched rating read when it was still undefined. -/
def assembleOutputs (ratings : List (String × ℚ)) : List (EShow × Option String) → List EShow
  | [] => []
  | (s, iid?) :: rest =>
      let s' :=
        match iid? with
        | some iid =>
            let s1 := { s with imdb_id := some iid }
            if s1.imdb_rating.isSome then s1
            else
              match jsMapGet ratings iid with
              | some r => { s1 with imdb_rating := some r }
              | none => s1
        | none => s
      s' :: assembleOutputs ratings rest

/-- One batch of the enrichment loop. -/
def processEnrichBatch (env : EnrichEnv) (batch : List EShow) (st : St) :
    Except Unit (List EShow) × St :=
  let groups := typeGroupsOf batch
  let (cmaps, st1) := loadGroupMappings env.ctx groups st
  match resolveEShows env cmaps batch [] st1 with
  | (.error e, _, st2) => (.error e, st2)
  | (.ok resolved, nmaps, st2) =>
      let st3 := writeNewMappings env.ctx nmaps st2
      let imdbIds := resolved.filterMap (fun p =>
        match p.2 with
        | some iid => if p.1.imdb_rating = none then some iid else none
        | none => none)
      let (ratings, st4) :=
        if !imdbIds.isEmpty then getCachedImdbRatings env.ctx imdbIds st3
        else ([], st3)
      (.ok (assembleOutputs ratings resolved), st4)

/-- The batch loop over chunks of 5. -/
def processEnrichBatches (env : EnrichEnv) : List (List EShow) → St →
    Except Unit (List EShow) × St
  | [], st => (.ok [], st)
  | b :: bs, st =>
      match processEnrichBatch env b st with
      | (.error e, st1) => (.error e, st1)
      | (.ok out, st1) =>
          match processEnrichBatches env bs st1 with
          | (.error e, st2) => (.error e, st2)
          | (.ok outs, st2) => (.ok (out ++ outs), st2)

/-- The enrichment route handler `POST`.  The whole body runs inside
try/catch: a malformed JSON body or any propagated rejection produces the
500 `serverError` response; a non-array `shows` produces 400. -/
def enrichPOST (env : EnrichEnv) (body : EnrichBody) (st : St) : EnrichResponse × St :=
  match body with
  | .malformed => (.serverError, st)
  | .json none => (.badRequest, st)
  | .json (some shows) =>
      match processEnrichBatches env (List.toChunks 5 shows) st with
      | (.error _, st1) => (.serverError, st1)
      | (.ok out, st1) => (.okShows out, st1)

/-! ## Derived notions and concrete fixtures used by the statements -/

/-- The titles a popular-page fetch yields once resolved (after the
ok/results checks of `fetchPopularPage`). -/
def pageItems (env : RunEnv) (mt : MediaType) (page : ℤ) : List PopularTitle :=
  match env.popularPage mt page with
  | .reject => []
  | .resp ok body =>
      if !ok then []
      else
        match body.results with
        | none => []
        | some ids => ids.map (fun i => ⟨i, mt⟩)

/-- The titles the loop body obtains for a cursor: a page within the
ceiling is fetched, one beyond it contributes `[]`. -/
def effPage (env : RunEnv) (mt : MediaType) (page : ℤ) : List PopularTitle :=
  if page ≤ MAX_TMDB_PAGES then pageItems env mt page else []

/-- No external catalog fetch of the run rejects (responses may still be
non-ok). -/
def NoRejectRun (env : RunEnv) : Prop :=
  (∀ mt p, env.popularPage mt p ≠ .reject) ∧ (∀ mt i, env.extIds mt i ≠ .reject)

/-- The remote KV tier never throws. -/
def NoKvErr (env : RunEnv) : Prop := ∀ n, env.ctx.kvErr n = false

/-- No external-ids fetch of the enrichment route rejects. -/
def NoRejectEnrich (env : EnrichEnv) : Prop := ∀ mt i, env.extIds mt i ≠ .reject

/-- The cycle state held by the KV store. -/
def cronStateOf (st : St) : Option CronStateV :=
  match st.kv "imdb:cron:state" with
  | some (.cron v) => some v
  | _ => none

/-- Every rating record of `st'` was already in `st` or is the parsed
provider value for its id. -/
def RatingsFrom (env : RunEnv) (st st' : St) : Prop :=
  ∀ key v, st'.kv key = some (KvValue.rating v) →
    st.kv key = some (KvValue.rating v) ∨
    ∃ id, key = ratingKey id ∧ omdbParsed env id = some v.rating

/-- No rating record of the remote store was added or changed. -/
def KvRatingsPreserved (st st' : St) : Prop :=
  ∀ key v, st'.kv key = some (KvValue.rating v) → st.kv key = some (KvValue.rating v)

/-- Item-level enrichment contract: identity fields preserved, an already
present rating never changed. -/
def EnrichedFrom (s out : EShow) : Prop :=
  out.id = s.id ∧ out.media_type = s.media_type ∧
  (s.imdb_rating.isSome = true → out.imdb_rating = s.imdb_rating)

/-- An effect that is a batched read of id-mapping keys only — never an
external-ids HTTP fetch, a provider fetch, a write, or a rating read. -/
def MapReadEv (e : Ev) : Prop :=
  ∃ (mt : MediaType) (l : List ℤ), e = Ev.kvMget (l.map (fun i => mapKey mt (some i)))

/-- The empty store state. -/
def st0 : St := { mem := fun _ => none, kv := fun _ => none, tick := 0, evs := [] }

/-- Disabled cache (non-production deployment), healthy remote tier. -/
def ctxOff : Ctx :=
  { production := false, kvUrl := true, kvToken := true, kvErr := fun _ => false, now := 0 }

/-- Disabled cache whose remote calls would all throw. -/
def ctxOffErr : Ctx := { ctxOff with kvErr := fun _ => true }

/-- Enabled cache with a healthy remote tier. -/
def ctxOn : Ctx :=
  { production := true, kvUrl := true, kvToken := true, kvErr := fun _ => false, now := 0 }

/-- Baseline cron environment: authorized scheduler call, both provider
keys configured, cache enabled, every popular page empty, every lookup
failing softly. -/
def envBase : RunEnv :=
  { ctx := ctxOn
    hasVercelCronHeader := true
    cronSecret := none
    authHeader := none
    tmdbKey := true
    omdbKey := true
    todayKey := "2026-10-12"
    popularPage := fun _ _ => .resp true ⟨some []⟩
    extIds := fun _ _ => .resp false ⟨none⟩
    omdb := fun _ => .resp false ⟨none, none⟩ }

/-- Provider answers `Response: "True", imdbRating: "11.5"` for every id. -/
def envC1 : RunEnv := { envBase with omdb := fun _ => .resp true ⟨some "True", some "11.5"⟩ }

/-- One popular movie; its external id resolves and the provider answers
the out-of-range rating string "11.5". -/
def envC1run : RunEnv :=
  { envBase with
    popularPage := fun mt p =>
      if mt = .movie ∧ p = 1 then .resp true ⟨some [42]⟩ else .resp true ⟨some []⟩
    extIds := fun _ _ => .resp true ⟨some "tt0000001"⟩
    omdb := fun _ => .resp true ⟨some "True", some "11.5"⟩ }

/-- Provider answers with the unparseable rating string "N/A". -/
def envC1na : RunEnv := { envBase with omdb := fun _ => .resp true ⟨some "True", some "N/A"⟩ }

/-- Movie pages all empty; tv page 1 holds one item, later tv pages are
empty; cache disabled. -/
def envC3 : RunEnv :=
  { envBase with
    ctx := ctxOff
    popularPage := fun mt p =>
      if mt = .tv ∧ p = 1 then .resp true ⟨some [7]⟩ else .resp true ⟨some []⟩ }

/-- The very first movie-page fetch rejects (network failure). -/
def envC7r : RunEnv :=
  { envBase with
    popularPage := fun mt p =>
      if mt = .movie ∧ p = 1 then .reject else .resp true ⟨some []⟩ }

/-- A persisted cycle state recorded for the current date. -/
def stC4 : St :=
  { st0 with
    kv := fnUpdate st0.kv "imdb:cron:state"
      (some (.cron ⟨5, some "2026-10-12", some 3, some 4⟩)) }

/-- Enrichment environment with a disabled cache and soft-failing
external-ids lookups. -/
def enrichEnvOff : EnrichEnv := { ctx := ctxOff, extIds := fun _ _ => .resp false ⟨none⟩ }

/-- Enrichment environment whose external-ids fetches reject. -/
def enrichEnvReject : EnrichEnv := { ctx := ctxOff, extIds := fun _ _ => .reject }

/-- A series item with a poster and a single episode. -/
def showA : Show :=
  { poster_path := some "a", vote_average := some 8, media_type := some .tv,
    episode_count := some 1 }

/-- A highly popular item with a poster. -/
def showB : Show := { poster_path := some "b", popularity := some 999 }

/-- A stand-in for `Math.log10` in witnesses (no claim depends on it). -/
def lgW : ℚ → ℚ := fun _ => 0

/-- An already-enriched catalog item. -/
def eshowRated : EShow :=
  { id := some 1, media_type := some .movie, imdb_rating := some 8, imdb_id := some "tt1" }

/-! ## Theorems: ranking engine basics -/

theorem baseScore_eq_specBase (lg : ℚ → ℚ) (s : Show) :
    baseScore lg s = specBase lg s := by
  unfold baseScore specBase
  ring

theorem episodeMultiplier_eq_specPenalty (s : Show) :
    episodeMultiplier s = specPenalty s := by
  unfold episodeMultiplier specPenalty
  rcases s.media_type with _ | (_ | _)
  · rfl
  · rfl
  · rcases s.episode_count with _ | ec
    · rfl
    · simp only [show (ec = 0 ∨ ec = 1) ↔ ec ≤ 1 from by omega]

theorem comprehensiveScore_eq_specScore (lg : ℚ → ℚ) (s : Show) :
    comprehensiveScore lg s = specScore lg s := by
  unfold comprehensiveScore specScore
  rw [baseScore_eq_specBase, episodeMultiplier_eq_specPenalty]

theorem scoreLe_iff (lg : ℚ → ℚ) (a b : Show) :
    scoreLe lg a b = true ↔
      (hasPoster a = true ∧ hasPoster b = false) ∨
      (hasPoster a = hasPoster b ∧
        comprehensiveScore lg b ≤ comprehensiveScore lg a) := by
  cases ha : hasPoster a <;> cases hb : hasPoster b <;>
    simp [scoreLe, scoreCompare, ha, hb, sub_nonpos]

theorem scoreLe_total (lg : ℚ → ℚ) (a b : Show) :
    (scoreLe lg a b || scoreLe lg b a) = true := by
  rw [Bool.or_eq_true, scoreLe_iff, scoreLe_iff]
  cases ha : hasPoster a <;> cases hb : hasPoster b <;> simp [ha, hb]
  · exact le_total _ _
  · exact le_total _ _

theorem scoreLe_trans (lg : ℚ → ℚ) (a b c : Show)
    (hab : scoreLe lg a b = true) (hbc : scoreLe lg b c = true) :
    scoreLe lg a c = true := by
  rw [scoreLe_iff] at hab hbc ⊢
  cases ha : hasPoster a <;> cases hb : hasPoster b <;> cases hc : hasPoster c <;>
    simp_all
  · exact hbc.trans hab
  · exact hbc.trans hab

/-! ## Claim C2: the comprehensive ranking formula -/

/-- C2: the ranking comparator orders items by the blended score
`0.25·popularity + 0.35·(voteAverage·10 + min(voteCount/1000,1)·50) +
0.25·(min(log10(revenue+1)/10,1)·100) + 0.15·(max(0,(10−min(castOrder,10))/10)·100)`
(castOrder defaulting to 999), multiplied by the episode-count penalty
applied only to series items with a defined episode count (0.1 for 0–1,
0.3 for 2–3, 0.5 for 4–5, 0.7 for 6–9, 1.0 for 10+); in particular a
series with one episode scores exactly 0.1 times its unpenalized base. -/
theorem C2_comprehensive_score_formula (lg : ℚ → ℚ) (a b : Show)
    (hp : hasPoster a = hasPoster b) :
    comprehensiveScore lg a = specScore lg a ∧
    (scoreLe lg a b = true ↔ specScore lg b ≤ specScore lg a) ∧
    (a.media_type = some .tv → a.episode_count = some 1 →
      comprehensiveScore lg a = (1 / 10) * baseScore lg a) := by
  refine ⟨comprehensiveScore_eq_specScore lg a, ?_, ?_⟩
  · rw [scoreLe_iff, comprehensiveScore_eq_specScore, comprehensiveScore_eq_specScore]
    simp [hp]
  · intro hmt hec
    unfold comprehensiveScore episodeMultiplier
    rw [hmt, hec]
    norm_num [mul_comm]

/-- Witness for C2 at a concrete pair of items. -/
theorem C2_comprehensive_score_formula_witness :
    hasPoster showA = hasPoster showB ∧
    (comprehensiveScore lgW showA = specScore lgW showA ∧
      (scoreLe lgW showA showB = true ↔ specScore lgW showB ≤ specScore lgW showA) ∧
      (showA.media_type = some .tv → showA.episode_count = some 1 →
        comprehensiveScore lgW showA = (1 / 10) * baseScore lgW showA)) :=
  ⟨rfl, C2_comprehensive_score_formula lgW showA showB rfl⟩

/-! ## Claim C9: poster presence is the primary sort key -/

/-- C9: in the output of `sortShowsByComprehensiveScore`, an item without
a poster never precedes an item with one: whenever `a` appears before `b`
and `b` has a poster, `a` has one too, regardless of scores. -/
theorem C9_poster_is_primary_key (lg : ℚ → ℚ) (shows : List Show) :
    (sortShowsByComprehensiveScore lg shows).Pairwise
      (fun a b => hasPoster b = true → hasPoster a = true) := by
  have hs : (shows.mergeSort (fun a b => scoreLe lg a b)).Pairwise
      (fun a b => scoreLe lg a b = true) :=
    List.sorted_mergeSort (fun a b c => scoreLe_trans lg a b c)
      (fun a b => scoreLe_total lg a b) shows
  have heq : sortShowsByComprehensiveScore lg shows =
      shows.mergeSort (fun a b => scoreLe lg a b) := rfl
  rw [heq]
  refine hs.imp ?_
  intro a b hab hb
  rw [scoreLe_iff] at hab
  rcases hab with ⟨ha, _⟩ | ⟨heq', _⟩
  · exact ha
  · exact heq'.trans hb

/-! ## Claim C5: day-cycle arithmetic and cursor reset -/

/-- C5: for every previous cycle state (including the absent first-run
case, and any state with the in-range day index the data model
guarantees), the job computes `nextDayIndex = (previousDayIndex + 1) mod
30`, so the persisted day index lies in `[0, 30)`; whenever it is 0 — in
particular after day 29, and on first run — both page cursors start at 1. -/
theorem C5_day_cycle_wraparound (stateOpt : Option CronStateV)
    (hnn : ∀ cs, stateOpt = some cs → 0 ≤ cs.dayIndex) :
    0 ≤ nextDayIndexOf stateOpt ∧ nextDayIndexOf stateOpt < DAYS_IN_CYCLE ∧
    (nextDayIndexOf stateOpt = 0 → initialCursors stateOpt = (1, 1)) ∧
    (∀ cs, stateOpt = some cs → cs.dayIndex = 29 → nextDayIndexOf stateOpt = 0) ∧
    (stateOpt = none → nextDayIndexOf stateOpt = 0) := by
  have hpos : (0 : ℤ) < DAYS_IN_CYCLE := by decide
  refine ⟨?_, ?_, ?_, ?_, ?_⟩
  · rcases stateOpt with _ | cs
    · decide
    · have h0 := hnn cs rfl
      show 0 ≤ Int.tmod (cs.dayIndex + 1) DAYS_IN_CYCLE
      rw [Int.tmod_eq_emod (by omega) (by decide)]
      exact Int.emod_nonneg _ (by decide)
  · rcases stateOpt with _ | cs
    · decide
    · rcases le_or_lt 0 cs.dayIndex with h0 | h0
      · show Int.tmod (cs.dayIndex + 1) DAYS_IN_CYCLE < DAYS_IN_CYCLE
        rw [Int.tmod_eq_emod (by omega) (by decide)]
        exact Int.emod_lt_of_pos _ hpos
      · exact absurd (hnn cs rfl) (by omega)
  · intro hz
    unfold initialCursors
    rw [if_pos hz]
  · intro cs hcs h29
    rw [hcs]
    show Int.tmod (cs.dayIndex + 1) DAYS_IN_CYCLE = 0
    rw [h29]
    decide
  · intro hcs
    rw [hcs]
    decide

/-- Witness for C5 at the stored day index 29. -/
theorem C5_day_cycle_wraparound_witness :
    (∀ cs, (some ⟨29, some "2026-10-11", some 7, some 9⟩ : Option CronStateV) = some cs →
      0 ≤ cs.dayIndex) ∧
    (0 ≤ nextDayIndexOf (some ⟨29, some "2026-10-11", some 7, some 9⟩) ∧
      nextDayIndexOf (some ⟨29, some "2026-10-11", some 7, some 9⟩) < DAYS_IN_CYCLE ∧
      (nextDayIndexOf (some ⟨29, some "2026-10-11", some 7, some 9⟩) = 0 →
        initialCursors (some ⟨29, some "2026-10-11", some 7, some 9⟩) = (1, 1)) ∧
      (∀ cs, (some ⟨29, some "2026-10-11", some 7, some 9⟩ : Option CronStateV) = some cs →
        cs.dayIndex = 29 →
        nextDayIndexOf (some ⟨29, some "2026-10-11", some 7, some 9⟩) = 0) ∧
      ((some ⟨29, some "2026-10-11", some 7, some 9⟩ : Option CronStateV) = none →
        nextDayIndexOf (some ⟨29, some "2026-10-11", some 7, some 9⟩) = 0)) := by
  constructor
  · intro cs h
    injection h with h
    rw [← h]
    decide
  · exact C5_day_cycle_wraparound _ (fun cs h => by
      injection h with h
      rw [← h]
      decide)

/-! ## Claim C6: disabled-mode behaviour -/

/-- Counterexample to C6 as stated: with the cache disabled,
`incrementOmdbUsage` is NOT a no-op — it performs a remote `INCR` (and
mutates the remote counter), and when the remote tier throws it throws
rather than returning: the function has no `isKvEnabled` guard and no
try/catch. -/
theorem C6_counterexample :
    isKvEnabled ctxOff = false ∧
    (incrementOmdbUsage ctxOff "2026-10-12" st0).2.evs =
      [.kvIncr "imdb:omdb:usage:2026-10-12"] ∧
    (incrementOmdbUsage ctxOff "2026-10-12" st0).2.kv "imdb:omdb:usage:2026-10-12" =
      some (.counter 1) ∧
    isKvEnabled ctxOffErr = false ∧
    (incrementOmdbUsage ctxOffErr "2026-10-12" st0).1 = .error () := by
  refine ⟨rfl, rfl, ?_, rfl, rfl⟩
  simp [incrementOmdbUsage, kvCall, ctxOff, st0, usageKey, fnUpdate]

/-- C6 (amended): with the cache disabled, every read/write operation
except `incrementOmdbUsage` returns absent (or an empty map), leaves the
state untouched, performs no remote access and does not throw, for all
inputs; `incrementOmdbUsage` alone performs its remote increment
unconditionally. -/
theorem C6_disabled_mode_noop (c : Ctx) (st : St) (h : isKvEnabled c = false) :
    (∀ iid, getCachedImdbRating c iid st = (none, st)) ∧
    (∀ ids, getCachedImdbRatings c ids st = ([], st)) ∧
    (∀ mt i, getCachedImdbId c mt i st = (none, st)) ∧
    (∀ mt ids, getCachedImdbIds c mt ids st = ([], st)) ∧
    getCronState c st = (.ok none, st) ∧
    (∀ d, getOmdbUsage c d st = (.ok none, st)) ∧
    (∀ iid r, setCachedImdbRating c iid r st = st) ∧
    (∀ rs, setCachedImdbRatings c rs st = st) ∧
    (∀ mt i iid, setCachedImdbId c mt i iid st = st) ∧
    (∀ mt ms, setCachedImdbIds c mt ms st = st) ∧
    (∀ cs, setCronState c cs st = (.ok (), st)) := by
  refine ⟨?_, ?_, ?_, ?_, ?_, ?_, ?_, ?_, ?_, ?_, ?_⟩ <;>
    intros <;>
    simp [getCachedImdbRating, getCachedImdbRatings, getCachedImdbId,
      getCachedImdbIds, getCronState, getOmdbUsage, setCachedImdbRating,
      setCachedImdbRatings, setCachedImdbId, setCachedImdbIds, setCronState, h]

/-- Witness for C6 (amended) at the concrete disabled context. -/
theorem C6_disabled_mode_noop_witness :
    isKvEnabled ctxOff = false ∧
    getCachedImdbRating ctxOff "tt0111161" st0 = (none, st0) ∧
    getCachedImdbRatings ctxOff ["tt0111161"] st0 = ([], st0) ∧
    setCachedImdbRatings ctxOff [("tt0111161", 93 / 10)] st0 = st0 ∧
    setCronState ctxOff ⟨0, some "2026-10-12", some 1, some 1⟩ st0 = (.ok (), st0) := by
  have h := C6_disabled_mode_noop ctxOff st0 rfl
  exact ⟨rfl, h.1 _, h.2.1 _, h.2.2.2.2.2.2.2.1 _, h.2.2.2.2.2.2.2.2.2.2 _⟩

/-! ## Claim C4: skip-if-already-run -/

theorem getCronState_enabled (c : Ctx) (st : St) (hen : isKvEnabled c = true)
    (herr : c.kvErr st.tick = false) :
    getCronState c st =
      (.ok (cronStateOf st),
       { st with tick := st.tick + 1, evs := st.evs ++ [.kvGet "imdb:cron:state"] }) := by
  cases hkv : st.kv "imdb:cron:state" with
  | none => simp [getCronState, kvCall, cronStateOf, hen, herr, hkv]
  | some v => cases v <;> simp [getCronState, kvCall, cronStateOf, hen, herr, hkv]

/-- C4: when the persisted cycle state's `lastRunDate` equals the current
date, the job answers `skipped` with the stored `dayIndex` at once: the
only effect is the single KV read of the state blob — no catalog or
ratings network call is made, and neither store tier changes. -/
theorem C4_skip_already_ran (env : RunEnv) (st : St) (cs : CronStateV)
    (hauth : isAuthorizedCron env = true)
    (htk : env.tmdbKey = true) (hok : env.omdbKey = true)
    (hen : isKvEnabled env.ctx = true)
    (hstate : st.kv "imdb:cron:state" = some (.cron cs))
    (htoday : cs.lastRunDate = some env.todayKey)
    (herr : env.ctx.kvErr st.tick = false) :
    cronGET env st =
      (.ok (.skipped cs.dayIndex),
       { st with tick := st.tick + 1, evs := st.evs ++ [.kvGet "imdb:cron:state"] }) := by
  unfold cronGET
  rw [getCronState_enabled env.ctx st hen herr]
  simp [hauth, htk, hok, isImdbCacheEnabled, hen, cronStateOf, hstate, htoday]

/-- Witness for C4 at a concrete environment and stored state. -/
theorem C4_skip_already_ran_witness :
    isAuthorizedCron envBase = true ∧
    stC4.kv "imdb:cron:state" = some (.cron ⟨5, some "2026-10-12", some 3, some 4⟩) ∧
    cronGET envBase stC4 =
      (.ok (.skipped 5),
       { stC4 with tick := stC4.tick + 1, evs := stC4.evs ++ [.kvGet "imdb:cron:state"] }) := by
  refine ⟨rfl, ?_, ?_⟩
  · simp [stC4, st0, fnUpdate]
  · exact C4_skip_already_ran envBase stC4 ⟨5, some "2026-10-12", some 3, some 4⟩ rfl rfl rfl
      rfl (by simp [stC4, st0, fnUpdate]) rfl rfl

/-! ## Claim C1: which rating values reach the store -/

theorem omdbRatingFromBody_parse (resp ir : Option String) (r : ℚ)
    (h : omdbRatingFromBody resp ir = some r) :
    ∃ s, ir = some s ∧ jsParseFloat s = some r := by
  unfold omdbRatingFromBody at h
  by_cases hresp : resp = some "True"
  · rw [if_pos hresp] at h
    cases ir with
    | none => cases h
    | some s =>
        have h2 : (if s = "" then none else jsParseFloat s) = some r := h
        split at h2
        · cases h2
        · exact ⟨s, rfl, h2⟩
  · rw [if_neg hresp] at h
    cases h

theorem jsParseFloat_none_omdb (resp : Option String) (s : String)
    (h : jsParseFloat s = none) :
    omdbRatingFromBody resp (some s) = none := by
  unfold omdbRatingFromBody
  by_cases hresp : resp = some "True"
  · rw [if_pos hresp]
    show (if s = "" then none else jsParseFloat s) = none
    split
    · rfl
    · exact h
  · rw [if_neg hresp]

theorem fetchOmdbRating_some (env : RunEnv) (iid : String) (st : St) (r : ℚ)
    (h : (fetchOmdbRating env iid st).1 = some r) :
    omdbParsed env iid = some r := by
  unfold fetchOmdbRating at h
  unfold omdbParsed
  cases hk : env.omdbKey
  · simp [hk] at h
  · simp only [hk, Bool.not_true, Bool.false_eq_true, if_false] at h ⊢
    rcases hinc : incrementOmdbUsage env.ctx env.todayKey st with ⟨e, st1⟩
    rw [hinc] at h
    cases e
    · simp at h
    · dsimp only at h
      cases hom : env.omdb iid with
      | reject =>
          rw [hom] at h
          simp at h
      | resp ok body =>
          rw [hom] at h
          cases ok
          · simp at h
          · simpa using h

theorem getMemoryCache_kv (c : Ctx) (st : St) (k : String) :
    ((getMemoryCache c st k).2).kv = st.kv := by
  unfold getMemoryCache
  split <;> try rfl
  split <;> rfl

theorem memScanRatings_kv (c : Ctx) (ids : List String) (st : St) :
    ((memScanRatings c ids st).2.2).kv = st.kv := by
  induction ids generalizing st with
  | nil => rfl
  | cons id ids ih =>
      unfold memScanRatings
      have hmem := getMemoryCache_kv c st (ratingKey id)
      split
      next h => rw [show (memScanRatings c ids _).2.2 = _ from rfl] at *; simp_all [ih]
      next h => simp_all [ih]
      next h => simp_all [ih]

theorem mergeKvRatings_kv (c : Ctx) (ids : List String) (acc : List (String × ℚ)) (st : St) :
    ((mergeKvRatings c ids acc st).2).kv = st.kv := by
  induction ids generalizing acc st with
  | nil => rfl
  | cons id ids ih =>
      unfold mergeKvRatings
      split <;> simp_all [setMemoryCache]

theorem getCachedImdbRatings_kv (c : Ctx) (ids : List String) (st : St) :
    ((getCachedImdbRatings c ids st).2).kv = st.kv := by
  unfold getCachedImdbRatings
  dsimp only
  split
  · rfl
  · split
    · exact memScanRatings_kv c _ st
    · dsimp only [kvCall]
      split
      · exact memScanRatings_kv c _ st
      · rw [mergeKvRatings_kv]
        exact memScanRatings_kv c _ st

theorem memScanIds_kv (c : Ctx) (mt : MediaType) (ids : List ℤ) (st : St) :
    ((memScanIds c mt ids st).2.2).kv = st.kv := by
  induction ids generalizing st with
  | nil => rfl
  | cons id ids ih =>
      unfold memScanIds
      have hmem := getMemoryCache_kv c st (mapKey mt (some id))
      split <;> simp_all [ih]

theorem mergeKvIds_kv (c : Ctx) (mt : MediaType) (ids : List ℤ)
    (acc : List (ℤ × String)) (st : St) :
    ((mergeKvIds c mt ids acc st).2).kv = st.kv := by
  induction ids generalizing acc st with
  | nil => rfl
  | cons id ids ih =>
      unfold mergeKvIds
      split
      · split <;> simp_all [setMemoryCache]
      · simp_all

theorem getCachedImdbIds_kv (c : Ctx) (mt : MediaType) (ids : List (Option ℤ)) (st : St) :
    ((getCachedImdbIds c mt ids st).2).kv = st.kv := by
  unfold getCachedImdbIds
  dsimp only
  split
  · rfl
  · split
    · exact memScanIds_kv c mt _ st
    · dsimp only [kvCall]
      split
      · exact memScanIds_kv c mt _ st
      · rw [mergeKvIds_kv]
        exact memScanIds_kv c mt _ st

theorem fetchPopularPage_kv (env : RunEnv) (mt : MediaType) (p : ℤ) (st : St) :
    ((fetchPopularPage env mt p st).2).kv = st.kv := by
  unfold fetchPopularPage
  cases env.popularPage mt p with
  | reject => rfl
  | resp ok body =>
      cases body with
      | mk results =>
          dsimp only
          split
          · rfl
          · cases results <;> rfl

theorem kvMsetStore_lookup (pairs : List (String × KvValue))
    (kv : String → Option KvValue) (key : String) (w : KvValue)
    (h : kvMsetStore kv pairs key = some w) :
    kv key = some w ∨ (key, w) ∈ pairs := by
  induction pairs generalizing kv with
  | nil => exact .inl h
  | cons p rest ih =>
      rcases ih _ h with h1 | h1
      · unfold fnUpdate at h1
        split at h1
        next heq =>
          injection h1 with h1
          refine .inr ?_
          rw [heq, ← h1]
          exact List.mem_cons_self _ _
        · exact .inl h1
      · exact .inr (List.mem_cons_of_mem _ h1)

/-- Every step of the memory-population fold leaves the remote store
untouched. -/
theorem foldl_setMemoryCache_kv {α : Type} (c : Ctx) (f : α → String) (g : α → KvValue)
    (l : List α) (st : St) :
    (l.foldl (fun acc p => setMemoryCache c acc (f p) (g p)) st).kv = st.kv := by
  induction l generalizing st with
  | nil => rfl
  | cons p rest ih => exact ih _

theorem setCachedImdbIds_ratings_preserved (c : Ctx) (mt : MediaType)
    (m : List (Option ℤ × String)) (st : St) :
    KvRatingsPreserved st (setCachedImdbIds c mt m st) := by
  intro key v h
  unfold setCachedImdbIds at h
  dsimp only at h
  split at h
  · exact h
  · dsimp only [kvCall] at h
    split at h
    · rw [foldl_setMemoryCache_kv] at h
      exact h
    · rcases kvMsetStore_lookup _ _ _ _ h with h1 | h1
      · rw [foldl_setMemoryCache_kv] at h1
        exact h1
      · rcases List.mem_map.mp h1 with ⟨p, _, hp⟩
        cases hp

theorem setCachedImdbRatings_lookup (c : Ctx) (rs : List (String × ℚ)) (st : St)
    (key : String) (v : RatingValue)
    (h : (setCachedImdbRatings c rs st).kv key = some (.rating v)) :
    st.kv key = some (.rating v) ∨
      ∃ p ∈ rs, key = ratingKey p.1 ∧ v = ⟨p.2, c.now⟩ := by
  unfold setCachedImdbRatings at h
  dsimp only at h
  split at h
  · exact .inl h
  · dsimp only [kvCall] at h
    split at h
    · rw [foldl_setMemoryCache_kv] at h
      exact .inl h
    · rcases kvMsetStore_lookup _ _ _ _ h with h1 | h1
      · rw [foldl_setMemoryCache_kv] at h1
        exact .inl h1
      · rcases List.mem_map.mp h1 with ⟨p, hmem, hp⟩
        injection hp with hp1 hp2
        injection hp2 with hp2
        exact .inr ⟨p, hmem, hp1.symm, hp2.symm⟩

theorem kvRatingsPreserved_trans {a b c : St}
    (h1 : KvRatingsPreserved a b) (h2 : KvRatingsPreserved b c) :
    KvRatingsPreserved a c :=
  fun k v h => h1 k v (h2 k v h)

theorem kvRatingsPreserved_of_eq {a b : St} (h : b.kv = a.kv) : KvRatingsPreserved a b :=
  fun k v hv => by rw [← h]; exact hv

theorem ratingsFrom_of_preserved (env : RunEnv) {a b : St}
    (h : KvRatingsPreserved a b) : RatingsFrom env a b :=
  fun k v hv => .inl (h k v hv)

theorem ratingsFrom_trans {env : RunEnv} {a b c : St}
    (h1 : RatingsFrom env a b) (h2 : RatingsFrom env b c) : RatingsFrom env a c := by
  intro k v hv
  rcases h2 k v hv with h | h
  · exact h1 k v h
  · exact .inr h

theorem incrementOmdbUsage_ratings_preserved (c : Ctx) (d : String) (st : St) :
    KvRatingsPreserved st ((incrementOmdbUsage c d st).2) := by
  intro key v h
  unfold incrementOmdbUsage at h
  dsimp only [kvCall] at h
  split at h
  · exact h
  · dsimp only [fnUpdate] at h
    by_cases hk : key = usageKey d
    · rw [if_pos hk] at h
      simp at h
    · rw [if_neg hk] at h
      exact h

theorem setCronState_ratings_preserved (c : Ctx) (s : CronStateV) (st : St) :
    KvRatingsPreserved st ((setCronState c s st).2) := by
  intro key v h
  unfold setCronState at h
  dsimp only at h
  split at h
  · exact h
  · dsimp only [kvCall] at h
    split at h
    · exact h
    · dsimp only [fnUpdate] at h
      by_cases hk : key = "imdb:cron:state"
      · rw [if_pos hk] at h
        simp at h
      · rw [if_neg hk] at h
        exact h

theorem fetchOmdbRating_ratings_preserved (env : RunEnv) (iid : String) (st : St) :
    KvRatingsPreserved st ((fetchOmdbRating env iid st).2) := by
  intro key v h
  unfold fetchOmdbRating at h
  split at h
  · exact h
  · rcases hinc : incrementOmdbUsage env.ctx env.todayKey st with ⟨e, st1⟩
    rw [hinc] at h
    have hpres := incrementOmdbUsage_ratings_preserved env.ctx env.todayKey st
    rw [hinc] at hpres
    cases e
    · exact hpres _ _ h
    · dsimp only at h
      cases hom : env.omdb iid with
      | reject =>
          rw [hom] at h
          exact hpres _ _ h
      | resp ok body =>
          rw [hom] at h
          dsimp only at h
          split at h
          · exact hpres _ _ h
          · exact hpres _ _ h

theorem jsMapSet_mem {α β : Type} [DecidableEq α] (m : List (α × β)) (k : α) (v : β)
    (p : α × β) (h : p ∈ jsMapSet m k v) : p ∈ m ∨ p = (k, v) := by
  unfold jsMapSet at h
  split at h
  · rcases List.mem_map.mp h with ⟨q, hq, hpq⟩
    split at hpq
    · exact .inr hpq.symm
    · exact .inl (hpq ▸ hq)
  · rcases List.mem_append.mp h with h1 | h1
    · exact .inl h1
    · simp only [List.mem_singleton] at h1
      exact .inr h1

theorem ratingPass_spec (env : RunEnv) (m : List (String × ℚ))
    (l : List (PopularTitle × Option String)) (c : Counters)
    (w : List (String × ℚ)) (st : St)
    (hw : ∀ p ∈ w, omdbParsed env p.1 = some p.2) :
    (∀ p ∈ (ratingPass env m l c w st).2.1, omdbParsed env p.1 = some p.2) ∧
    KvRatingsPreserved st (ratingPass env m l c w st).2.2 := by
  induction l generalizing c w st with
  | nil => exact ⟨hw, fun _ _ h => h⟩
  | cons p rest ih =>
      rcases p with ⟨t, iid?⟩
      cases iid? with
      | none => exact ih _ _ _ hw
      | some iid =>
          unfold ratingPass
          split
          · exact ih _ _ _ hw
          · split
            next r st1 hfetch =>
              have hr : omdbParsed env iid = some r :=
                fetchOmdbRating_some env iid st r (by rw [hfetch])
              have hw' : ∀ p ∈ jsMapSet w iid r, omdbParsed env p.1 = some p.2 := by
                intro p hp
                rcases jsMapSet_mem w iid r p hp with hp1 | hp1
                · exact hw p hp1
                · rw [hp1]
                  exact hr
              have hpres : KvRatingsPreserved st st1 := by
                have := fetchOmdbRating_ratings_preserved env iid st
                rw [hfetch] at this
                exact this
              rcases ih _ _ st1 hw' with ⟨ha, hb⟩
              exact ⟨ha, kvRatingsPreserved_trans hpres hb⟩
            next st1 hfetch =>
              have hpres : KvRatingsPreserved st st1 := by
                have := fetchOmdbRating_ratings_preserved env iid st
                rw [hfetch] at this
                exact this
              rcases ih _ _ st1 hw with ⟨ha, hb⟩
              exact ⟨ha, kvRatingsPreserved_trans hpres hb⟩

theorem resolveTitles_kv (env : RunEnv) (mm tm : List (ℤ × String))
    (l : List PopularTitle) (nm nt : List (Option ℤ × String)) (st : St) :
    ((resolveTitles env mm tm l nm nt st).2.2.2).kv = st.kv := by
  induction l generalizing nm nt st with
  | nil => rfl
  | cons t ts ih =>
      unfold resolveTitles
      dsimp only
      split
      · split
        next heq =>
          have h1 := ih nm nt st
          rw [heq] at h1
          exact h1
        next heq =>
          have h1 := ih nm nt st
          rw [heq] at h1
          exact h1
      · cases env.extIds t.media_type t.id with
        | reject => rfl
        | resp ok body =>
            dsimp only
            split
            next heq =>
              have h2 := congrArg (fun q => q.2.2.2) heq
              dsimp only at h2 ⊢
              rw [← h2, ih]
              rfl
            next heq =>
              have h2 := congrArg (fun q => q.2.2.2) heq
              dsimp only at h2 ⊢
              rw [← h2, ih]
              rfl

theorem ite_setCachedImdbIds_preserved (c : Ctx) (mt : MediaType) (b : Prop) [Decidable b]
    (m : List (Option ℤ × String)) (st : St) :
    KvRatingsPreserved st (if b then setCachedImdbIds c mt m st else st) := by
  split
  · exact setCachedImdbIds_ratings_preserved c mt m st
  · exact fun _ _ h => h

theorem ite_getCachedImdbIds_kv (c : Ctx) (mt : MediaType) (b : Prop) [Decidable b]
    (ids : List (Option ℤ)) (st : St) :
    ((if b then getCachedImdbIds c mt ids st else ([], st)).2).kv = st.kv := by
  split
  · exact getCachedImdbIds_kv c mt ids st
  · rfl

theorem ite_getCachedImdbRatings_kv (c : Ctx) (b : Prop) [Decidable b]
    (ids : List String) (st : St) :
    ((if b then getCachedImdbRatings c ids st else ([], st)).2).kv = st.kv := by
  split
  · exact getCachedImdbRatings_kv c ids st
  · rfl

theorem ite_fetchPopularPage_kv (env : RunEnv) (mt : MediaType) (p : ℤ)
    (b : Prop) [Decidable b] (st : St) :
    ((if b then fetchPopularPage env mt p st else (.ok [], st)).2).kv = st.kv := by
  split
  · exact fetchPopularPage_kv env mt p st
  · rfl

theorem ite_setCachedImdbRatings_lookup (c : Ctx) (b : Prop) [Decidable b]
    (rs : List (String × ℚ)) (st : St) (key : String) (v : RatingValue)
    (h : (if b then setCachedImdbRatings c rs st else st).kv key = some (.rating v)) :
    st.kv key = some (.rating v) ∨ ∃ p ∈ rs, key = ratingKey p.1 ∧ v = ⟨p.2, c.now⟩ := by
  split at h
  · exact setCachedImdbRatings_lookup c rs st key v h
  · exact .inl h

theorem processChunk_ratingsFrom (env : RunEnv) (chunk : List PopularTitle)
    (c : Counters) (st : St) :
    RatingsFrom env st (processChunk env chunk c st).2 := by
  unfold processChunk
  dsimp only
  split
  next heq =>
    apply ratingsFrom_of_preserved
    apply kvRatingsPreserved_of_eq
    have h2 := congrArg (fun q => q.2.2.2) heq
    dsimp only at h2
    rw [← h2, resolveTitles_kv, ite_getCachedImdbIds_kv, ite_getCachedImdbIds_kv]
  next resolved nm nt st3 heq =>
    have h2 := congrArg (fun q => q.2.2.2) heq
    dsimp only at h2
    have hst3 : st3.kv = st.kv := by
      rw [← h2, resolveTitles_kv, ite_getCachedImdbIds_kv, ite_getCachedImdbIds_kv]
    dsimp only
    intro key v hv
    rcases ite_setCachedImdbRatings_lookup _ _ _ _ _ _ hv with h | ⟨p, hmem, hkey, hveq⟩
    · left
      have hv2 := (ratingPass_spec env _ resolved c [] _
        (fun q hq => absurd hq (List.not_mem_nil q))).2 key v h
      rw [ite_getCachedImdbRatings_kv] at hv2
      have hv3 := ite_setCachedImdbIds_preserved env.ctx .tv _ nt _ key v hv2
      have hv4 := ite_setCachedImdbIds_preserved env.ctx .movie _ nm st3 key v hv3
      rw [hst3] at hv4
      exact hv4
    · right
      refine ⟨p.1, hkey, ?_⟩
      have hp := (ratingPass_spec env _ resolved c [] _
        (fun q hq => absurd hq (List.not_mem_nil q))).1 p hmem
      rw [hveq]
      exact hp

theorem processChunks_ratingsFrom (env : RunEnv) (l : List (List PopularTitle))
    (c : Counters) (st : St) :
    RatingsFrom env st (processChunks env l c st).2 := by
  induction l generalizing c st with
  | nil => exact fun _ _ h => .inl h
  | cons chunk rest ih =>
      unfold processChunks
      split
      · exact fun _ _ h => .inl h
      · split
        next heq =>
          have h1 := processChunk_ratingsFrom env chunk c st
          rw [heq] at h1
          exact h1
        next c1 st1 heq =>
          have h1 := processChunk_ratingsFrom env chunk c st
          rw [heq] at h1
          exact ratingsFrom_trans h1 (ih c1 st1)

theorem loopBody_ratingsFrom (env : RunEnv) (s : LoopSt) (st : St) :
    RatingsFrom env st (loopBody env s st).2 := by
  unfold loopBody
  dsimp only
  split
  · apply ratingsFrom_of_preserved
    apply kvRatingsPreserved_of_eq
    rw [ite_fetchPopularPage_kv, ite_fetchPopularPage_kv]
  · apply ratingsFrom_of_preserved
    apply kvRatingsPreserved_of_eq
    rw [ite_fetchPopularPage_kv, ite_fetchPopularPage_kv]
  · have hpre : RatingsFrom env st
        ((if s.tvPage ≤ MAX_TMDB_PAGES then
            fetchPopularPage env .tv s.tvPage
              (if s.moviePage ≤ MAX_TMDB_PAGES then fetchPopularPage env .movie s.moviePage st
                else (.ok [], st)).2
          else (.ok [],
            (if s.moviePage ≤ MAX_TMDB_PAGES then fetchPopularPage env .movie s.moviePage st
              else (.ok [], st)).2)).2) := by
      apply ratingsFrom_of_preserved
      apply kvRatingsPreserved_of_eq
      rw [ite_fetchPopularPage_kv, ite_fetchPopularPage_kv]
    split
    · exact hpre
    · split
      next heq =>
        refine ratingsFrom_trans hpre ?_
        have h1 := congrArg Prod.snd heq
        dsimp only at h1 ⊢
        rw [← h1]
        exact processChunks_ratingsFrom env _ _ _
      next c1 st3 heq =>
        refine ratingsFrom_trans hpre ?_
        have h1 := congrArg Prod.snd heq
        dsimp only at h1 ⊢
        rw [← h1]
        exact processChunks_ratingsFrom env _ _ _

theorem runLoop_ratingsFrom (env : RunEnv) (s : LoopSt) (st : St) :
    RatingsFrom env st (runLoop env s st).2 := by
  induction s, st using runLoop.induct env with
  | case1 s st hguard s' st' h =>
      rw [runLoop]
      rw [if_pos hguard, h]
      have h1 := loopBody_ratingsFrom env s st
      rw [h] at h1
      exact h1
  | case2 s st hguard st' h =>
      rw [runLoop]
      rw [if_pos hguard, h]
      have h1 := loopBody_ratingsFrom env s st
      rw [h] at h1
      exact h1
  | case3 s st hguard s' st' h ih =>
      rw [runLoop]
      rw [if_pos hguard, h]
      have h1 := loopBody_ratingsFrom env s st
      rw [h] at h1
      exact ratingsFrom_trans h1 ih
  | case4 s st hguard =>
      rw [runLoop]
      rw [if_neg hguard]
      exact fun _ _ h => .inl h

theorem getCronState_kv (c : Ctx) (st : St) : ((getCronState c st).2).kv = st.kv := by
  unfold getCronState
  dsimp only
  split
  · rfl
  · dsimp only [kvCall]
    split
    · rfl
    · split <;> rfl

theorem cronGETRun_ratingsFrom (env : RunEnv) (so : Option CronStateV) (st : St) :
    RatingsFrom env st (cronGETRun env so st).2 := by
  unfold cronGETRun
  dsimp only
  split
  next heq =>
    have h1 := congrArg Prod.snd heq
    dsimp only at h1 ⊢
    rw [← h1]
    exact runLoop_ratingsFrom env _ st
  next s' st1 heq =>
    have h1 := congrArg Prod.snd heq
    dsimp only at h1
    have hA : RatingsFrom env st st1 := by
      rw [← h1]
      exact runLoop_ratingsFrom env _ st
    split
    next heq2 =>
      have h2 := congrArg Prod.snd heq2
      dsimp only at h2 ⊢
      rw [← h2]
      exact ratingsFrom_trans hA
        (ratingsFrom_of_preserved env (setCronState_ratings_preserved env.ctx _ st1))
    next heq2 =>
      have h2 := congrArg Prod.snd heq2
      dsimp only at h2 ⊢
      rw [← h2]
      exact ratingsFrom_trans hA
        (ratingsFrom_of_preserved env (setCronState_ratings_preserved env.ctx _ st1))

theorem cronGET_ratingsFrom (env : RunEnv) (st : St) :
    RatingsFrom env st (cronGET env st).2 := by
  unfold cronGET
  split
  · exact fun _ _ h => .inl h
  · split
    · exact fun _ _ h => .inl h
    · split
      · exact fun _ _ h => .inl h
      · split
        next heq =>
          have h1 := getCronState_kv env.ctx st
          rw [heq] at h1
          exact ratingsFrom_of_preserved env (kvRatingsPreserved_of_eq h1)
        next so st1 heq =>
          have h1 := getCronState_kv env.ctx st
          rw [heq] at h1
          have hpre : RatingsFrom env st st1 :=
            ratingsFrom_of_preserved env (kvRatingsPreserved_of_eq h1)
          split
          · split
            · exact hpre
            · exact ratingsFrom_trans hpre (cronGETRun_ratingsFrom env _ st1)
          · exact ratingsFrom_trans hpre (cronGETRun_ratingsFrom env none st1)

theorem parse115 : jsParseFloat "11.5" = some (23 / 2) := by
  have h1 : "11.5".data.dropWhile isWsChar = ['1', '1', '.', '5'] := by decide
  unfold jsParseFloat
  rw [h1]
  show parseDecimal ['1', '1', '.', '5'] = some (23 / 2)
  unfold parseDecimal
  have h2 : List.takeWhile isDigitChar ['1', '1', '.', '5'] = ['1', '1'] := by decide
  have h3 : List.dropWhile isDigitChar ['1', '1', '.', '5'] = ['.', '5'] := by decide
  have hf : fracOf ['.', '5'] = (['5'], []) := by decide
  rw [h2, h3, hf]
  have h6 : natOfDigits ['1', '1'] = 11 := by decide
  have h7 : natOfDigits ['5'] = 5 := by decide
  dsimp only
  rw [h6, h7]
  show some ((11 + 5 / 10 ^ 1) * 10 ^ expoOf []) = some (23 / 2)
  norm_num [expoOf]

theorem fetch_115 : (fetchOmdbRating envC1run "tt0000001" st0).1 = some (23 / 2) := by
  simp [fetchOmdbRating, envC1run, envBase, ctxOn, incrementOmdbUsage, kvCall, usageKey,
    fnUpdate, netEv, st0, omdbRatingFromBody, parse115]

/-- Counterexample to C1 as stated: the parsed rating is never
range-checked.  With the provider answering `imdbRating: "11.5"`, the
fetcher returns 11.5, and `setCachedImdbRatings` writes it into the
rating store as-is — a stored value outside `[0, 10]`. -/
theorem C1_counterexample :
    (fetchOmdbRating envC1run "tt0000001" st0).1 = some (23 / 2) ∧
    (setCachedImdbRatings ctxOn [("tt0000001", 23 / 2)] st0).kv (ratingKey "tt0000001") =
      some (.rating ⟨23 / 2, 0⟩) ∧
    ¬((23 : ℚ) / 2 ≤ 10) := by
  refine ⟨fetch_115, ?_, by norm_num⟩
  simp [setCachedImdbRatings, isKvEnabled, ctxOn, st0, kvCall, kvMsetStore, fnUpdate,
    ratingKey, setMemoryCache]

/-- C1 (amended): the fetcher returns `null` whenever the provider's
rating field fails to parse as a number, and unparseable values are never
stored: any value the fetcher returns is exactly the parsed provider
value, `setCachedImdbRatings` stores exactly the pairs it is given, and
after a full run every rating record in the store is either pre-existing
or the parsed provider value for its id.  (Parsed values are NOT clamped,
so a stored rating lies in `[0, 10]` only when the provider's parsed
value does — see the counterexample.) -/
theorem C1_stored_ratings_are_parsed (env : RunEnv) (st : St) :
    (∀ iid ok resp sr, env.omdb iid = .resp ok ⟨resp, some sr⟩ → jsParseFloat sr = none →
      (fetchOmdbRating env iid st).1 = none) ∧
    (∀ iid r, (fetchOmdbRating env iid st).1 = some r → omdbParsed env iid = some r) ∧
    (∀ rs key v, (setCachedImdbRatings env.ctx rs st).kv key = some (.rating v) →
      st.kv key = some (.rating v) ∨ ∃ p ∈ rs, key = ratingKey p.1 ∧ v = ⟨p.2, env.ctx.now⟩) ∧
    RatingsFrom env st (cronGET env st).2 := by
  refine ⟨?_, fun iid r h => fetchOmdbRating_some env iid st r h,
    fun rs key v h => setCachedImdbRatings_lookup env.ctx rs st key v h,
    cronGET_ratingsFrom env st⟩
  intro iid ok resp sr hod hpf
  unfold fetchOmdbRating
  cases hk : env.omdbKey
  · simp
  · simp only [hk, Bool.not_true, Bool.false_eq_true, if_false]
    rcases hinc : incrementOmdbUsage env.ctx env.todayKey st with ⟨e, st1⟩
    cases e
    · rfl
    · dsimp only
      rw [hod]
      cases ok
      · rfl
      · simp [jsParseFloat_none_omdb resp sr hpf]

/-- Witness for C1 (amended) at concrete provider responses. -/
theorem C1_stored_ratings_are_parsed_witness :
    jsParseFloat "N/A" = none ∧
    (fetchOmdbRating envC1na "tt0000001" st0).1 = none ∧
    (fetchOmdbRating envC1run "tt0000001" st0).1 = some (23 / 2) ∧
    omdbParsed envC1run "tt0000001" = some (23 / 2) := by
  refine ⟨by decide, ?_, fetch_115, ?_⟩
  · exact (C1_stored_ratings_are_parsed envC1na st0).1 "tt0000001" true (some "True") "N/A"
      rfl (by decide)
  · exact (C1_stored_ratings_are_parsed envC1run st0).2.1 "tt0000001" (23 / 2) fetch_115

/-! ## Claim C3: termination and exit conditions of the main loop -/

theorem fetchPopularPage_ok (env : RunEnv) (mt : MediaType) (p : ℤ) (st : St)
    (l : List PopularTitle) (h : (fetchPopularPage env mt p st).1 = .ok l) :
    l = pageItems env mt p := by
  unfold fetchPopularPage at h
  unfold pageItems
  rcases henv : env.popularPage mt p with _ | ⟨ok, body⟩
  · rw [henv] at h
    simp at h
  · cases ok
    · rw [henv] at h
      simp at h
      simp [h]
    · rcases body with ⟨_ | ids⟩
      · rw [henv] at h
        simp at h
        simp [h]
      · rw [henv] at h
        simp at h
        simp [h]

theorem fetchPopularPage_not_reject (env : RunEnv) (mt : MediaType) (p : ℤ) (st : St)
    (hnr : env.popularPage mt p ≠ .reject) (e : Unit) :
    (fetchPopularPage env mt p st).1 ≠ .error e := by
  unfold fetchPopularPage
  cases henv : env.popularPage mt p with
  | reject => exact absurd henv hnr
  | resp ok body =>
      dsimp only
      split
      · intro hc
        cases hc
      · cases body.results <;> intro hc <;> cases hc

theorem resolveTitles_ok (env : RunEnv) (mm tm : List (ℤ × String))
    (l : List PopularTitle) (nm nt : List (Option ℤ × String)) (st : St)
    (hnr : ∀ mt i, env.extIds mt i ≠ .reject) (e : Unit) :
    (resolveTitles env mm tm l nm nt st).1 ≠ .error e := by
  induction l generalizing nm nt st with
  | nil => intro hc; cases hc
  | cons t ts ih =>
      unfold resolveTitles
      dsimp only
      split
      · split
        next heq =>
          intro hc
          cases hc
        next heq =>
          have h1 := congrArg (fun q => q.1) heq
          dsimp only at h1
          exact absurd h1 (ih _ _ _)
      · cases henv : env.extIds t.media_type t.id with
        | reject => exact absurd henv (hnr _ _)
        | resp ok body =>
            dsimp only
            split
            next heq =>
              intro hc
              cases hc
            next heq =>
              have h1 := congrArg (fun q => q.1) heq
              dsimp only at h1
              exact absurd h1 (ih _ _ _)

theorem processChunk_ok (env : RunEnv) (chunk : List PopularTitle) (c : Counters) (st : St)
    (hnr : ∀ mt i, env.extIds mt i ≠ .reject) (e : Unit) :
    (processChunk env chunk c st).1 ≠ .error e := by
  unfold processChunk
  dsimp only
  split
  next heq =>
    have h1 := congrArg (fun q => q.1) heq
    dsimp only at h1
    exact absurd h1 (resolveTitles_ok env _ _ chunk [] [] _ hnr e)
  next heq =>
    intro hc
    cases hc

theorem processChunks_ok (env : RunEnv) (l : List (List PopularTitle))
    (c : Counters) (st : St) (hnr : ∀ mt i, env.extIds mt i ≠ .reject) (e : Unit) :
    (processChunks env l c st).1 ≠ .error e := by
  induction l generalizing c st with
  | nil => intro hc; cases hc
  | cons chunk rest ih =>
      unfold processChunks
      split
      · intro hc
        cases hc
      · split
        next heq =>
          have h1 := processChunk_ok env chunk c st hnr e
          rw [heq] at h1
          exact absurd rfl h1
        next c1 st1 heq =>
          exact ih c1 st1

theorem loopBody_not_thrown (env : RunEnv) (hnr : NoRejectRun env) (s : LoopSt) (st : St) :
    (loopBody env s st).1 ≠ .thrown := by
  unfold loopBody
  dsimp only
  split
  next u heq =>
    by_cases hmp : s.moviePage ≤ MAX_TMDB_PAGES
    · rw [if_pos hmp] at heq
      exact absurd heq (fetchPopularPage_not_reject env .movie s.moviePage st (hnr.1 _ _) _)
    · rw [if_neg hmp] at heq
      cases heq
  next u heq hex =>
    by_cases htp : s.tvPage ≤ MAX_TMDB_PAGES
    · rw [if_pos htp] at heq
      exact absurd heq (fetchPopularPage_not_reject env .tv s.tvPage _ (hnr.1 _ _) _)
    · rw [if_neg htp] at heq
      cases heq
  next movieResults tvResults heqm heqt =>
    split
    · intro hc
      cases hc
    · split
      next heq =>
        have h1 := congrArg (fun q => q.1) heq
        dsimp only at h1
        exact absurd h1 (processChunks_ok env _ _ _ hnr.2 _)
      next heq =>
        intro hc
        cases hc

theorem loopBody_exit_char (env : RunEnv) (s s' : LoopSt) (st st' : St)
    (h : loopBody env s st = (.exit s', st')) :
    s'.moviePage = s.moviePage ∧ s'.tvPage = s.tvPage ∧
    effPage env .movie s.moviePage = [] ∧ effPage env .tv s.tvPage = [] := by
  unfold loopBody at h
  dsimp only at h
  split at h
  · cases h
  · cases h
  next movieResults tvResults heqm heqt =>
    have hm : movieResults = effPage env .movie s.moviePage := by
      unfold effPage
      split
      next hle =>
        rw [if_pos hle] at heqm
        exact fetchPopularPage_ok env .movie s.moviePage st movieResults heqm
      next hle =>
        rw [if_neg hle] at heqm
        injection heqm with heqm
        exact heqm.symm
    have ht : tvResults = effPage env .tv s.tvPage := by
      unfold effPage
      split
      next hle =>
        rw [if_pos hle] at heqt
        exact fetchPopularPage_ok env .tv s.tvPage _ tvResults heqt
      next hle =>
        rw [if_neg hle] at heqt
        injection heqt with heqt
        exact heqt.symm
    split at h
    next hemp =>
      rw [List.isEmpty_iff, List.append_eq_nil] at hemp
      injection h with h1 h2
      injection h1 with h1
      rw [← h1]
      rw [hemp.1] at hm
      rw [hemp.2] at ht
      refine ⟨?_, ?_, hm.symm ▸ rfl, ht.symm ▸ rfl⟩
      · dsimp only
        rw [if_pos]
        rw [hemp.1]
        rfl
      · dsimp only
        rw [if_pos]
        rw [hemp.2]
        rfl
    · split at h <;> cases h

/-- Under no network rejection the main loop always terminates
successfully, at a state satisfying one of the three exit conditions. -/
theorem runLoop_ok (env : RunEnv) (s : LoopSt) (st : St) (hnr : NoRejectRun env) :
    ∃ s' st', runLoop env s st = (.ok s', st') ∧
      (TARGET_NEW_RATINGS ≤ s'.cnt.newRatings ∨
       (MAX_TMDB_PAGES < s'.moviePage ∧ MAX_TMDB_PAGES < s'.tvPage) ∨
       (effPage env .movie s'.moviePage = [] ∧ effPage env .tv s'.tvPage = [])) := by
  induction s, st using runLoop.induct env with
  | case1 s st hguard s' st' h =>
      rw [runLoop, if_pos hguard, h]
      rcases loopBody_exit_char env s s' st st' h with ⟨hm, ht, hem, het⟩
      exact ⟨s', st', rfl, .inr (.inr ⟨hm ▸ hem, ht ▸ het⟩)⟩
  | case2 s st hguard st' h =>
      have h1 := loopBody_not_thrown env hnr s st
      rw [h] at h1
      exact absurd rfl h1
  | case3 s st hguard s' st' h ih =>
      rw [runLoop, if_pos hguard, h]
      exact ih
  | case4 s st hguard =>
      rw [runLoop, if_neg hguard]
      refine ⟨s, st, rfl, ?_⟩
      rcases not_and_or.mp hguard with h1 | h1
      · exact .inl (by omega)
      · rcases not_or.mp h1 with ⟨h2, h3⟩
        exact .inr (.inl ⟨by omega, by omega⟩)

/-- C3 (amended): for every cycle state and every sequence of fetched
pages (none rejecting), the main loop terminates (`runLoop` is a total
function), and it exits exactly when the first of these holds: the
new-ratings target (1000) is reached, both cursors exceed the page
ceiling (500), or the combined fetched batch — the movie page and the tv
page together — is empty; a single empty page alone does not exit (the
cursor of an empty combined batch is left unadvanced, witnessing where it
stopped).  The loop guard holding false means immediate exit with nothing
fetched. -/
theorem C3_loop_terminates_and_exit (env : RunEnv) (s : LoopSt) (st : St)
    (hnr : NoRejectRun env) :
    (∃ s' st', runLoop env s st = (.ok s', st') ∧
      (TARGET_NEW_RATINGS ≤ s'.cnt.newRatings ∨
       (MAX_TMDB_PAGES < s'.moviePage ∧ MAX_TMDB_PAGES < s'.tvPage) ∨
       (effPage env .movie s'.moviePage = [] ∧ effPage env .tv s'.tvPage = []))) ∧
    (¬(s.cnt.newRatings < TARGET_NEW_RATINGS ∧
        (s.moviePage ≤ MAX_TMDB_PAGES ∨ s.tvPage ≤ MAX_TMDB_PAGES)) →
      runLoop env s st = (.ok s, st)) := by
  constructor
  · exact runLoop_ok env s st hnr
  · intro hguard
    rw [runLoop, if_neg hguard]

/-- Witness for C3 at a concrete environment and start state. -/
theorem C3_loop_terminates_and_exit_witness :
    NoRejectRun envBase ∧
    ((∃ s' st', runLoop envBase ⟨1, 1, {}⟩ st0 = (.ok s', st') ∧
      (TARGET_NEW_RATINGS ≤ s'.cnt.newRatings ∨
       (MAX_TMDB_PAGES < s'.moviePage ∧ MAX_TMDB_PAGES < s'.tvPage) ∨
       (effPage envBase .movie s'.moviePage = [] ∧ effPage envBase .tv s'.tvPage = []))) ∧
    (¬((⟨1, 1, {}⟩ : LoopSt).cnt.newRatings < TARGET_NEW_RATINGS ∧
        ((⟨1, 1, {}⟩ : LoopSt).moviePage ≤ MAX_TMDB_PAGES ∨
          (⟨1, 1, {}⟩ : LoopSt).tvPage ≤ MAX_TMDB_PAGES)) →
      runLoop envBase ⟨1, 1, {}⟩ st0 = (.ok ⟨1, 1, {}⟩, st0))) := by
  have hnr : NoRejectRun envBase :=
    ⟨fun mt p hc => by simp [envBase] at hc, fun mt i hc => by simp [envBase] at hc⟩
  exact ⟨hnr, C3_loop_terminates_and_exit envBase ⟨1, 1, {}⟩ st0 hnr⟩

/-- Counterexample to C3 as stated: "a fetched page returns zero items"
is NOT an exit condition on its own.  In `envC3` the movie page 1 fetch
returns zero items at the very first iteration, yet the loop continues —
it processes the one title of the tv page (processed = 1) and only exits
one iteration later when the combined batch is empty. -/
theorem C3_counterexample :
    effPage envC3 .movie 1 = [] ∧
    (runLoop envC3 ⟨1, 1, {}⟩ st0).1 =
      .ok ⟨1, 2, { processed := 1, missingImdbId := 1, tvPagesScanned := 1 }⟩ := by
  constructor
  · decide
  · have h1 : (loopBody envC3 ⟨1, 1, {}⟩ st0).1 =
        .next ⟨1, 2, { processed := 1, missingImdbId := 1, tvPagesScanned := 1 }⟩ := by
      decide
    rcases hlb : loopBody envC3 ⟨1, 1, {}⟩ st0 with ⟨out, st1⟩
    rw [hlb] at h1
    rw [runLoop, if_pos (by constructor <;> decide), hlb]
    dsimp only at h1
    rw [h1]
    dsimp only
    rcases hlb2 : loopBody envC3 ⟨1, 2,
        { processed := 1, missingImdbId := 1, tvPagesScanned := 1 }⟩ st1 with ⟨out2, st2⟩
    have h3 : out2 = .exit ⟨1, 2,
        { processed := 1, missingImdbId := 1, tvPagesScanned := 1 }⟩ := by
      have h4 := congrArg Prod.fst hlb2
      dsimp only at h4
      rw [← h4]
      rfl
    rw [runLoop, if_pos (by constructor <;> decide), hlb2, h3]

/-! ## Claim C7: the unconditional final state write -/

theorem setCronState_enabled (c : Ctx) (s : CronStateV) (st : St)
    (hen : isKvEnabled c = true) (herr : c.kvErr st.tick = false) :
    setCronState c s st =
      (.ok (), { mem := st.mem,
                 kv := fnUpdate st.kv "imdb:cron:state" (some (.cron s)),
                 tick := st.tick + 1,
                 evs := st.evs ++ [.kvSet "imdb:cron:state" (.cron s)] }) := by
  simp [setCronState, kvCall, hen, herr]

/-- Counterexample to C7 as stated: a rejected (network-failed) popular
page fetch is NOT isolated — the rejection propagates out of the run
(there is no try/catch), and the final `setCronState` write never
happens: the cycle state is still absent after the failed run. -/
theorem C7_counterexample :
    (cronGET envC7r st0).1 = .error () ∧
    ((cronGET envC7r st0).2).kv "imdb:cron:state" = none := by
  have hnd : nextDayIndexOf none = 0 := by decide
  have hic : initialCursors none = (1, 1) := by simp [initialCursors, hnd]
  have hloop : ∀ st, runLoop envC7r ⟨1, 1, {}⟩ st =
      (.error (), netEv (netEv st (.pageFetch .movie 1)) (.pageFetch .tv 1)) := by
    intro st
    rw [runLoop, if_pos (by constructor <;> decide)]
    have hlb : loopBody envC7r ⟨1, 1, {}⟩ st =
        (.thrown, netEv (netEv st (.pageFetch .movie 1)) (.pageFetch .tv 1)) := rfl
    rw [hlb]
  have hstep : cronGET envC7r st0 =
      cronGETRun envC7r none ⟨st0.mem, st0.kv, 1, [.kvGet "imdb:cron:state"]⟩ := rfl
  have hmain : cronGET envC7r st0 =
      (.error (), netEv (netEv ⟨st0.mem, st0.kv, 1, [.kvGet "imdb:cron:state"]⟩
        (.pageFetch .movie 1)) (.pageFetch .tv 1)) := by
    rw [hstep]
    simp only [cronGETRun, hnd, hic]
    rw [hloop]
  exact ⟨by rw [hmain], by rw [hmain]; rfl⟩

/-- C7 (amended): every invocation passing the authorization,
configuration and already-ran-today checks, in which no external catalog
fetch rejects at the network level and the KV tier is healthy, terminates
by persisting the cycle state with the new day index, today's date and
the final page cursors — even if the target was not reached and whatever
error responses (non-ok pages, failed item resolutions, provider
failures) occurred: those are isolated and counted.  A network-level
rejection, however, aborts the run without the final write (see the
counterexample). -/
theorem C7_run_persists_state (env : RunEnv) (st : St)
    (hauth : isAuthorizedCron env = true)
    (htk : env.tmdbKey = true) (hok : env.omdbKey = true)
    (hen : isKvEnabled env.ctx = true)
    (hnr : NoRejectRun env) (hkv : NoKvErr env)
    (hnot : ∀ cs, cronStateOf st = some cs → cs.lastRunDate ≠ some env.todayKey) :
    ∃ mp tp cnt st',
      cronGET env st = (.ok (.okRun (nextDayIndexOf (cronStateOf st)) mp tp cnt), st') ∧
      st'.kv "imdb:cron:state" =
        some (.cron ⟨nextDayIndexOf (cronStateOf st), some env.todayKey, some mp, some tp⟩) := by
  unfold cronGET
  rw [getCronState_enabled env.ctx st hen (hkv _)]
  simp only [hauth, htk, hok, isImdbCacheEnabled, hen, Bool.not_true, Bool.false_eq_true,
    if_false, Bool.or_self]
  have hrun : ∀ st1 : St,
      ∃ mp tp cnt st', cronGETRun env (cronStateOf st) st1 =
        (.ok (.okRun (nextDayIndexOf (cronStateOf st)) mp tp cnt), st') ∧
      st'.kv "imdb:cron:state" =
        some (.cron ⟨nextDayIndexOf (cronStateOf st), some env.todayKey, some mp, some tp⟩) := by
    intro st1
    simp only [cronGETRun]
    rcases runLoop_ok env
        ⟨(initialCursors (cronStateOf st)).1, (initialCursors (cronStateOf st)).2, {}⟩
        st1 hnr with ⟨s', st2, hrl, _⟩
    rw [hrl]
    dsimp only
    rw [setCronState_enabled env.ctx _ st2 hen (hkv _)]
    refine ⟨s'.moviePage, s'.tvPage, s'.cnt, _, rfl, ?_⟩
    simp [fnUpdate]
  rcases hso : cronStateOf st with _ | cs
  · have h1 := hrun { st with
      tick := st.tick + 1,
      evs := st.evs ++ [.kvGet "imdb:cron:state"] }
    rw [hso] at h1
    exact h1
  · have hne : ¬cs.lastRunDate = some env.todayKey := hnot cs hso
    dsimp only
    rw [if_neg hne]
    have h1 := hrun { st with
      tick := st.tick + 1,
      evs := st.evs ++ [.kvGet "imdb:cron:state"] }
    rw [hso] at h1
    exact h1

/-- Witness for C7 (amended) at a concrete healthy environment with an
empty catalog: the final write still happens. -/
theorem C7_run_persists_state_witness :
    isAuthorizedCron envBase = true ∧ NoRejectRun envBase ∧ NoKvErr envBase ∧
    (∃ mp tp cnt st',
      cronGET envBase st0 = (.ok (.okRun (nextDayIndexOf (cronStateOf st0)) mp tp cnt), st') ∧
      st'.kv "imdb:cron:state" =
        some (.cron ⟨nextDayIndexOf (cronStateOf st0), some "2026-10-12", some mp, some tp⟩)) := by
  have hnr : NoRejectRun envBase :=
    ⟨fun mt p hc => by simp [envBase] at hc, fun mt i hc => by simp [envBase] at hc⟩
  refine ⟨rfl, hnr, fun n => rfl, ?_⟩
  exact C7_run_persists_state envBase st0 rfl rfl rfl rfl hnr (fun n => rfl)
    (fun cs h => by simp [cronStateOf, st0] at h)

/-! ## Claim C8: the enrichment endpoint on failure -/

theorem toChunks_go_flatten {α : Type} (n : ℕ) :
    ∀ (xs : List α) (a1 : Array α) (a2 : Array (List α)),
      (List.toChunks.go n xs a1 a2).flatten = a2.toList.flatten ++ a1.toList ++ xs := by
  intro xs
  induction xs with
  | nil => intro a1 a2; simp [List.toChunks.go]
  | cons x xs ih =>
      intro a1 a2
      rw [List.toChunks.go]
      split
      · rw [ih]; simp
      · rw [ih]; simp

theorem toChunks_flatten {α : Type} (n : ℕ) (xs : List α) :
    (List.toChunks (n + 1) xs).flatten = xs := by
  cases xs with
  | nil => rfl
  | cons x xs => simp [List.toChunks, toChunks_go_flatten]

theorem forall2_chain {α β γ : Type} {r : α → β → Prop} {q : β → γ → Prop} {p : α → γ → Prop}
    (h : ∀ a b c, r a b → q b c → p a c) :
    ∀ {la : List α} {lb : List β} {lc : List γ},
      List.Forall₂ r la lb → List.Forall₂ q lb lc → List.Forall₂ p la lc := by
  intro la lb lc h1
  induction h1 generalizing lc with
  | nil => intro h2; cases h2; exact .nil
  | cons hab ht ih =>
      intro h2
      cases h2 with
      | cons hbc h2t => exact .cons (h _ _ _ hab hbc) (ih h2t)

/-- Under no network rejection, the resolution pass succeeds and pairs
each input item, in order, with its resolved id. -/
theorem resolveEShows_ok (env : EnrichEnv) (hnr : NoRejectEnrich env)
    (cmaps : List (MediaType × List (ℤ × String))) :
    ∀ (batch : List EShow) (nmaps : List (MediaType × List (Option ℤ × String))) (st : St),
      ∃ rs nm' st', resolveEShows env cmaps batch nmaps st = (.ok rs, nm', st') ∧
        List.Forall₂ (fun s (p : EShow × Option String) => p.1 = s) batch rs := by
  intro batch
  induction batch with
  | nil => intro nmaps st; exact ⟨[], nmaps, st, rfl, .nil⟩
  | cons s rest ih =>
      intro nmaps st
      simp only [resolveEShows]
      by_cases hr : s.imdb_rating.isSome = true
      · rw [if_pos hr]
        rcases ih nmaps st with ⟨rs1, nm1, st1, heq, hf⟩
        rw [heq]
        exact ⟨_, _, _, rfl, .cons rfl hf⟩
      · rw [if_neg hr]
        rcases hcg : strTruthy (jsMapGetNum ((jsMapGet cmaps (effMediaType s)).getD []) s.id)
          with _ | iid
        · rcases hfe : env.extIds (effMediaType s) s.id with _ | ⟨ok, body⟩
          · exact absurd hfe (hnr _ _)
          · by_cases hok : ok = true
            · rw [hok]
              dsimp only
              rw [if_pos rfl]
              rcases hti : strTruthy body.imdb_id with _ | iid
              · dsimp only
                rcases ih nmaps (netEv st (.extIdsFetch (effMediaType s) s.id))
                  with ⟨rs1, nm1, st1, heq, hf⟩
                rw [heq]
                exact ⟨_, _, _, rfl, .cons rfl hf⟩
              · dsimp only
                rcases hjm : jsMapGet nmaps (effMediaType s) with _ | m
                · rcases ih (nmaps ++ [(effMediaType s, [(s.id, iid)])])
                      (netEv st (.extIdsFetch (effMediaType s) s.id))
                    with ⟨rs1, nm1, st1, heq, hf⟩
                  rw [heq]
                  exact ⟨_, _, _, rfl, .cons rfl hf⟩
                · rcases ih (jsMapSet nmaps (effMediaType s) (jsMapSet m s.id iid))
                      (netEv st (.extIdsFetch (effMediaType s) s.id))
                    with ⟨rs1, nm1, st1, heq, hf⟩
                  rw [heq]
                  exact ⟨_, _, _, rfl, .cons rfl hf⟩
            · have hok' : ok = false := by revert hok; cases ok <;> simp
              rw [hok']
              dsimp only
              rw [if_neg (by simp)]
              dsimp only
              rcases ih nmaps (netEv st (.extIdsFetch (effMediaType s) s.id))
                with ⟨rs1, nm1, st1, heq, hf⟩
              rw [heq]
              exact ⟨_, _, _, rfl, .cons rfl hf⟩
        · rcases ih nmaps st with ⟨rs1, nm1, st1, heq, hf⟩
          rw [heq]
          exact ⟨_, _, _, rfl, .cons rfl hf⟩

/-- The output pass enriches each resolved pair's item in place. -/
theorem assembleOutputs_enriched (ratings : List (String × ℚ)) :
    ∀ rs, List.Forall₂ (fun (p : EShow × Option String) out => EnrichedFrom p.1 out)
      rs (assembleOutputs ratings rs) := by
  intro rs
  induction rs with
  | nil => exact .nil
  | cons p rest ih =>
      rcases p with ⟨s, io⟩
      simp only [assembleOutputs]
      refine .cons ?_ ih
      rcases io with _ | iid
      · exact ⟨rfl, rfl, fun _ => rfl⟩
      · dsimp only
        by_cases hr : s.imdb_rating.isSome = true
        · rw [if_pos hr]
          exact ⟨rfl, rfl, fun _ => rfl⟩
        · rw [if_neg hr]
          rcases jsMapGet ratings iid with _ | r
        -- fall through: both arms yield an update preserving id and kind
          · exact ⟨rfl, rfl, fun h => absurd h hr⟩
          · exact ⟨rfl, rfl, fun h => absurd h hr⟩

/-- One enrichment batch succeeds under no rejection, enriching each item
of the batch in order. -/
theorem processEnrichBatch_ok (env : EnrichEnv) (hnr : NoRejectEnrich env)
    (batch : List EShow) (st : St) :
    ∃ out st', processEnrichBatch env batch st = (.ok out, st') ∧
      List.Forall₂ EnrichedFrom batch out := by
  simp only [processEnrichBatch]
  rcases hlg : loadGroupMappings env.ctx (typeGroupsOf batch) st with ⟨cmaps, st1⟩
  rcases resolveEShows_ok env hnr cmaps batch [] st1 with ⟨rs, nm', st2, heq, hf⟩
  rw [heq]
  dsimp only
  refine ⟨_, _, rfl, ?_⟩
  exact forall2_chain (fun a b c h1 h2 => h1 ▸ h2) hf (assembleOutputs_enriched _ rs)

/-- The chunked batch loop concatenates per-batch outputs. -/
theorem processEnrichBatches_ok (env : EnrichEnv) (hnr : NoRejectEnrich env) :
    ∀ (bs : List (List EShow)) (st : St), ∃ out st',
      processEnrichBatches env bs st = (.ok out, st') ∧
      List.Forall₂ EnrichedFrom bs.flatten out := by
  intro bs
  induction bs with
  | nil => intro st; exact ⟨[], st, rfl, .nil⟩
  | cons b bs ih =>
      intro st
      simp only [processEnrichBatches]
      rcases processEnrichBatch_ok env hnr b st with ⟨out1, st1, heq1, hf1⟩
      rw [heq1]
      dsimp only
      rcases ih st1 with ⟨out2, st2, heq2, hf2⟩
      rw [heq2]
      refine ⟨out1 ++ out2, st2, rfl, ?_⟩
      simpa using List.rel_append hf1 hf2

/-- Counterexample to C8 as stated: on total failure (every external-ids
fetch rejects) the endpoint returns the 500 error response, NOT the input
unchanged.  The input here is a single malformed item (no numeric id). -/
theorem C8_counterexample :
    (enrichPOST enrichEnvReject (.json (some [⟨none, none, none, none⟩])) st0).1 =
      .serverError ∧
    (EnrichResponse.serverError ≠ .okShows [⟨none, none, none, none⟩]) := by
  exact ⟨rfl, by decide⟩

/-- C8 (amended): the enrichment endpoint never rejects (it is total, the
route body being wrapped in try/catch), and whenever no external-ids
fetch rejects at the network level — malformed items with a missing
numeric id included — it returns the same items in order with identity
fields preserved and any present rating untouched; but on total failure
(a propagated rejection) it returns the 500 error response, not the input
unchanged (see the counterexample). -/
theorem C8_enrichment_resolves (env : EnrichEnv) (shows : List EShow) (st : St)
    (hnr : NoRejectEnrich env) :
    ∃ out st', enrichPOST env (.json (some shows)) st = (.okShows out, st') ∧
      List.Forall₂ EnrichedFrom shows out := by
  simp only [enrichPOST]
  rcases processEnrichBatches_ok env hnr (List.toChunks 5 shows) st with ⟨out, st', heq, hf⟩
  rw [heq]
  refine ⟨out, st', rfl, ?_⟩
  have h5 : (List.toChunks 5 shows).flatten = shows := toChunks_flatten 4 shows
  rw [h5] at hf
  exact hf

/-- Witness for C8 (amended): a malformed item (all fields absent) with
soft-failing lookups is returned unchanged-shaped, with no rejection. -/
theorem C8_enrichment_resolves_witness :
    NoRejectEnrich enrichEnvOff ∧
    ∃ out st',
      enrichPOST enrichEnvOff (.json (some [⟨none, none, none, none⟩])) st0 =
        (.okShows out, st') ∧
      List.Forall₂ EnrichedFrom [⟨none, none, none, none⟩] out := by
  have hnr : NoRejectEnrich enrichEnvOff := fun mt i h => by simp [enrichEnvOff] at h
  exact ⟨hnr, C8_enrichment_resolves enrichEnvOff [⟨none, none, none, none⟩] st0 hnr⟩

/-! ## Claim C10: already-rated items pass through without lookups -/

theorem getMemoryCache_evs (c : Ctx) (st : St) (k : String) :
    ((getMemoryCache c st k).2).evs = st.evs := by
  unfold getMemoryCache
  split <;> try rfl
  split <;> rfl

theorem memScanIds_evs (c : Ctx) (mt : MediaType) (ids : List ℤ) (st : St) :
    ((memScanIds c mt ids st).2.2).evs = st.evs := by
  induction ids generalizing st with
  | nil => rfl
  | cons id ids ih =>
      unfold memScanIds
      have hmem := getMemoryCache_evs c st (mapKey mt (some id))
      split <;> simp_all [ih]

theorem mergeKvIds_evs (c : Ctx) (mt : MediaType) (ids : List ℤ)
    (acc : List (ℤ × String)) (st : St) :
    ((mergeKvIds c mt ids acc st).2).evs = st.evs := by
  induction ids generalizing acc st with
  | nil => rfl
  | cons id ids ih =>
      unfold mergeKvIds
      split
      · split <;> simp_all [setMemoryCache]
      · simp_all

/-- A batched mapping read only ever logs a single `mget` of map keys. -/
theorem getCachedImdbIds_evs (c : Ctx) (mt : MediaType) (ids : List (Option ℤ)) (st : St) :
    ∃ tail, ((getCachedImdbIds c mt ids st).2).evs = st.evs ++ tail ∧
      ∀ e ∈ tail, MapReadEv e := by
  unfold getCachedImdbIds
  dsimp only
  split
  · exact ⟨[], by simp, by simp⟩
  · split
    · exact ⟨[], by simp [memScanIds_evs], by simp⟩
    · dsimp only [kvCall]
      split
      · refine ⟨[Ev.kvMget (List.map (fun i => mapKey mt (some i))
            ((memScanIds c mt ((dedupFirst ids).filterMap (fun x => x)) st).2.1))], ?_, ?_⟩
        · dsimp only
          rw [memScanIds_evs]
        · intro e he
          rw [List.mem_singleton] at he
          exact ⟨mt, _, he⟩
      · refine ⟨[Ev.kvMget (List.map (fun i => mapKey mt (some i))
            ((memScanIds c mt ((dedupFirst ids).filterMap (fun x => x)) st).2.1))], ?_, ?_⟩
        · rw [mergeKvIds_evs]
          dsimp only
          rw [memScanIds_evs]
        · intro e he
          rw [List.mem_singleton] at he
          exact ⟨mt, _, he⟩

/-- The grouped mapping loads preserve the remote store and log only
mapping reads. -/
theorem loadGroupMappings_st (c : Ctx) :
    ∀ (groups : List (MediaType × List (Option ℤ))) (st : St),
      ((loadGroupMappings c groups st).2).kv = st.kv ∧
      ∃ tail, ((loadGroupMappings c groups st).2).evs = st.evs ++ tail ∧
        ∀ e ∈ tail, MapReadEv e := by
  intro groups
  induction groups with
  | nil => intro st; exact ⟨rfl, [], by simp [loadGroupMappings], by simp⟩
  | cons g rest ih =>
      intro st
      rcases g with ⟨mt, ids⟩
      simp only [loadGroupMappings]
      have h1kv := getCachedImdbIds_kv c mt ids st
      rcases getCachedImdbIds_evs c mt ids st with ⟨t1, h1e, h1m⟩
      rcases hgi : getCachedImdbIds c mt ids st with ⟨m, st1⟩
      rw [hgi] at h1kv h1e
      dsimp only at h1kv h1e ⊢
      have h2 := ih st1
      rcases hlg : loadGroupMappings c rest st1 with ⟨ms, st2⟩
      rw [hlg] at h2
      rcases h2 with ⟨h2kv, t2, h2e, h2m⟩
      dsimp only at h2kv h2e ⊢
      refine ⟨by rw [h2kv, h1kv], t1 ++ t2, ?_, ?_⟩
      · rw [h2e, h1e, List.append_assoc]
      · intro e he
        rcases List.mem_append.mp he with h | h
        · exact h1m e h
        · exact h2m e h

/-- When every item of the batch already carries a rating, the resolution
pass is the identity on the state: no external-ids fetch is issued. -/
theorem resolveEShows_allRated (env : EnrichEnv)
    (cmaps : List (MediaType × List (ℤ × String))) :
    ∀ (batch : List EShow), (∀ s ∈ batch, s.imdb_rating.isSome = true) →
      ∀ (nmaps : List (MediaType × List (Option ℤ × String))) (st : St),
        resolveEShows env cmaps batch nmaps st =
          (.ok (batch.map (fun s => (s, strTruthy s.imdb_id))), nmaps, st) := by
  intro batch
  induction batch with
  | nil => intro h nmaps st; rfl
  | cons s rest ih =>
      intro h nmaps st
      simp only [resolveEShows]
      rw [if_pos (h s (List.mem_cons_self s rest))]
      rw [ih (fun x hx => h x (List.mem_cons_of_mem s hx)) nmaps st]
      rfl

theorem strTruthy_eq_some (o : Option String) (x : String) (h : strTruthy o = some x) :
    o = some x := by
  rcases o with _ | y
  · exact absurd h (by simp [strTruthy])
  · by_cases hy : y = ""
    · rw [strTruthy, if_pos hy] at h
      exact absurd h (by simp)
    · rw [strTruthy, if_neg hy] at h
      exact h

/-- The output pass returns already-rated items unchanged. -/
theorem assembleOutputs_rated (ratings : List (String × ℚ)) :
    ∀ (batch : List EShow), (∀ s ∈ batch, s.imdb_rating.isSome = true) →
      assembleOutputs ratings (batch.map (fun s => (s, strTruthy s.imdb_id))) = batch := by
  intro batch
  induction batch with
  | nil => intro h; rfl
  | cons s rest ih =>
      intro h
      simp only [List.map_cons, assembleOutputs]
      rw [ih (fun x hx => h x (List.mem_cons_of_mem s hx))]
      rcases hti : strTruthy s.imdb_id with _ | iid
      · rfl
      · dsimp only
        rw [if_pos (h s (List.mem_cons_self s rest))]
        rw [← strTruthy_eq_some s.imdb_id iid hti]

/-- A batch of already-rated items is excluded from the rating read. -/
theorem ratedPairs_filterMap (batch : List EShow)
    (h : ∀ s ∈ batch, s.imdb_rating.isSome = true) :
    (batch.map (fun s => (s, strTruthy s.imdb_id))).filterMap
      (fun p : EShow × Option String =>
        match p.2 with
        | some iid => if p.1.imdb_rating = none then some iid else none
        | none => none) = [] := by
  rw [List.filterMap_eq_nil_iff]
  intro p hp
  rcases List.mem_map.mp hp with ⟨s, hs, rfl⟩
  rcases hti : strTruthy s.imdb_id with _ | iid
  · rfl
  · dsimp only
    rw [if_neg]
    intro hn
    have hh := h s hs
    rw [hn] at hh
    simp at hh

/-- One batch of already-rated items: same items back, remote store
untouched, only mapping reads logged. -/
theorem processEnrichBatch_rated (env : EnrichEnv) (batch : List EShow) (st : St)
    (hall : ∀ s ∈ batch, s.imdb_rating.isSome = true) :
    ∃ st', processEnrichBatch env batch st = (.ok batch, st') ∧
      st'.kv = st.kv ∧ ∃ tail, st'.evs = st.evs ++ tail ∧ ∀ e ∈ tail, MapReadEv e := by
  simp only [processEnrichBatch]
  have hst := loadGroupMappings_st env.ctx (typeGroupsOf batch) st
  rcases hlg : loadGroupMappings env.ctx (typeGroupsOf batch) st with ⟨cmaps, st1⟩
  rw [hlg] at hst
  dsimp only at hst ⊢
  rcases hst with ⟨hkv1, t1, he1, hm1⟩
  rw [resolveEShows_allRated env cmaps batch hall [] st1]
  dsimp only
  rw [ratedPairs_filterMap batch hall]
  rw [if_neg (by simp)]
  dsimp only
  rw [assembleOutputs_rated [] batch hall]
  exact ⟨st1, rfl, hkv1, t1, he1, hm1⟩

/-- The chunked loop over all-rated batches. -/
theorem processEnrichBatches_rated (env : EnrichEnv) :
    ∀ (bs : List (List EShow)) (st : St),
      (∀ b ∈ bs, ∀ s ∈ b, s.imdb_rating.isSome = true) →
      ∃ st', processEnrichBatches env bs st = (.ok bs.flatten, st') ∧
        st'.kv = st.kv ∧ ∃ tail, st'.evs = st.evs ++ tail ∧ ∀ e ∈ tail, MapReadEv e := by
  intro bs
  induction bs with
  | nil => intro st h; exact ⟨st, rfl, rfl, [], by simp, by simp⟩
  | cons b rest ih =>
      intro st h
      simp only [processEnrichBatches]
      rcases processEnrichBatch_rated env b st (h b (List.mem_cons_self b rest))
        with ⟨st1, heq1, hkv1, t1, he1, hm1⟩
      rw [heq1]
      dsimp only
      rcases ih st1 (fun x hx => h x (List.mem_cons_of_mem b hx))
        with ⟨st2, heq2, hkv2, t2, he2, hm2⟩
      rw [heq2]
      dsimp only
      refine ⟨st2, rfl, by rw [hkv2, hkv1], t1 ++ t2, ?_, ?_⟩
      · rw [he2, he1, List.append_assoc]
      · intro e he
        rcases List.mem_append.mp he with hcase | hcase
        · exact hm1 e hcase
        · exact hm2 e hcase

/-- C10: when every input item already carries an `imdb_rating`, the
enrichment endpoint returns the very same list (ratings untouched), the
remote store is unchanged, and the only effects logged are batched reads
of id-mapping keys: no external-ids lookup and no rating read is issued
for already-enriched items, which are excluded from the batch rating
read. -/
theorem C10_rated_passthrough (env : EnrichEnv) (shows : List EShow) (st : St)
    (hall : ∀ s ∈ shows, s.imdb_rating.isSome = true) :
    ∃ st', enrichPOST env (.json (some shows)) st = (.okShows shows, st') ∧
      st'.kv = st.kv ∧ ∃ tail, st'.evs = st.evs ++ tail ∧ ∀ e ∈ tail, MapReadEv e := by
  simp only [enrichPOST]
  have hchunks : ∀ b ∈ List.toChunks 5 shows, ∀ s ∈ b, s.imdb_rating.isSome = true := by
    intro b hb s hs
    refine hall s ?_
    rw [← toChunks_flatten 4 shows]
    exact List.mem_flatten.mpr ⟨b, hb, hs⟩
  rcases processEnrichBatches_rated env (List.toChunks 5 shows) st hchunks
    with ⟨st', heq, hkv, tail, he, hm⟩
  rw [heq]
  rw [toChunks_flatten 4 shows] at heq ⊢
  exact ⟨st', rfl, hkv, tail, he, hm⟩

/-- Witness for C10 at a concrete already-enriched item. -/
theorem C10_rated_passthrough_witness :
    (∀ s ∈ [eshowRated], s.imdb_rating.isSome = true) ∧
    ∃ st', enrichPOST enrichEnvOff (.json (some [eshowRated])) st0 =
        (.okShows [eshowRated], st') ∧
      st'.kv = st0.kv ∧ ∃ tail, st'.evs = st0.evs ++ tail ∧ ∀ e ∈ tail, MapReadEv e := by
  have hall : ∀ s ∈ [eshowRated], s.imdb_rating.isSome = true := by
    intro s hs
    rw [List.mem_singleton] at hs
    rw [hs]
    rfl
  exact ⟨hall, C10_rated_passthrough enrichEnvOff [eshowRated] st0 hall⟩

end FindMyFlick
